import Mathlib

/-!
Verification of the towncryer-chat-server HTTP frontend and cluster proxy-topic
actor. Shallow embedding of `server/http.go` (web server lifecycle, auth
extraction, proxy topic event loop) and of the large-file media handler
(`largeFileServe` / `largeFileReceive` / `largeFileRunGarbageCollection`).

Conventions:
- Go `nil` pointers are `Option.none`. A step function returns `none` where
  its behaviour is not a determined state transition: a field access through a
  nil pointer (a certain panic), a `Panicf` call, an event that cannot occur,
  or a method call on a nil receiver whose body lies outside the provided
  sources — for the last of these `none` is an abstention (such a call panics
  only if the method body dereferences its receiver), not an asserted panic.
- Machine integers are `Nat` (no overflow is relevant to any statement here).
- Effects on the outside world (cluster calls, session queues, logging-free
  observables) are recorded in an explicit effect trace.
- Helpers of this repository that live outside the provided sources
  (`remSession`, `addSession`, `delSub`, `addSub`, `ParseUserId`, `IsChannel`,
  `store.Files.DeleteUnused`, `idleProxyTopicTimeout`) are modelled from the
  spec; their doc comments say so.
-/

namespace Towncryer

/-! ## Generic string and list helpers (Go stdlib behaviour) -/

/-- Association-list lookup by string key, the model of a Go `map[string]V`
read. Returns the first binding. -/
def alookup {α : Type} (k : String) : List (String × α) → Option α
  | [] => none
  | (k', v) :: rest => if k' = k then some v else alookup k rest

/-- Splitting a character list at every occurrence of `sep`, keeping empty
fields: the model of Go `strings.Split(s, sep)` for a one-character separator.
`splitChar sep [] = [[]]` just as Go returns `[""]` on the empty string. -/
def splitChar (sep : Char) : List Char → List (List Char)
  | [] => [[]]
  | c :: cs =>
    let r := splitChar sep cs
    if c = sep then [] :: r
    else
      match r with
      | h :: t => (c :: h) :: t
      | [] => [[c]]

/-- Go `strings.Split(s, " ")`. -/
def splitOnSpaceStr (s : String) : List String :=
  (splitChar ' ' s.toList).map (fun l => String.mk l)

/-- Go `strings.NewReplacer("-", "+", "_", "/").Replace(s)`: a character map. -/
def urlSafeToStd (s : String) : String :=
  String.mk (s.toList.map (fun c => if c = '-' then '+' else if c = '_' then '/' else c))

/-- Whether `p` is an initial segment of `l` (model for Go `strings.HasPrefix`
over char lists). -/
def leadsWith : List Char → List Char → Bool
  | [], _ => true
  | _ :: _, [] => false
  | a :: as, b :: bs => a = b && leadsWith as bs

/-- Go `strings.Contains` over char lists. -/
def containsSeq (needle : List Char) : List Char → Bool
  | [] => needle.isEmpty
  | c :: rest => leadsWith needle (c :: rest) || containsSeq needle rest

/-- Go `strings.Contains(hay, needle)`. -/
def strContains (hay needle : String) : Bool :=
  containsSeq needle.toList hay.toList

/-! ## HTTP request model and auth extraction (`getHttpAuth`, http.go) -/

/-- The parts of an `http.Request` that `getHttpAuth` consults. Header reads
(`Header.Get`) and query reads (`URL.Query().Get`) return `""` when absent;
`Cookie(name)` distinguishes absence (an error in Go, `none` here). `form`
holds the parsed request body form values: Go's `req.FormValue` falls back to
the URL query when the body has no value for the key. -/
structure HttpRequest where
  headers : List (String × String)
  query : List (String × String)
  form : List (String × String)
  cookies : List (String × String)
deriving DecidableEq, Repr

/-- `req.Header.Get(k)` (first value or empty string). -/
def headerGet (req : HttpRequest) (k : String) : String :=
  (alookup k req.headers).getD ""

/-- `req.URL.Query().Get(k)`. -/
def queryGet (req : HttpRequest) (k : String) : String :=
  (alookup k req.query).getD ""

/-- `req.FormValue(k)`: body form values take precedence, then URL query. -/
def formValue (req : HttpRequest) (k : String) : String :=
  match alookup k req.form with
  | some v => v
  | none => queryGet req k

/-- `req.Cookie(k)`: `none` models the `http.ErrNoCookie` error return. -/
def cookieGet (req : HttpRequest) (k : String) : Option String :=
  alookup k req.cookies

/-- A `method secret` header value split into exactly two parts: the
`parts := strings.Split(v, " "); len(parts) == 2` check of `getHttpAuth`. -/
def splitPair (s : String) : Option (String × String) :=
  match splitOnSpaceStr s with
  | [m, sec] => some (m, sec)
  | _ => none

/-- `getHttpAuth` from http.go: extracts the authorization method and secret,
checking the `X-Tinode-Auth` header, the `Authorization` header, URL query
parameters (rewriting the secret from URL-safe to standard base64 alphabet),
form values, and finally the `auth`/`secret` cookie pair. -/
def getHttpAuth (req : HttpRequest) : String × String :=
  match splitPair (headerGet req "X-Tinode-Auth") with
  | some p => p
  | none =>
    match splitPair (headerGet req "Authorization") with
    | some p => p
    | none =>
      let method := queryGet req "auth"
      if method ≠ "" then
        (method, urlSafeToStd (queryGet req "secret"))
      else
        let fm := formValue req "auth"
        if fm ≠ "" then (fm, formValue req "secret")
        else
          match cookieGet req "auth", cookieGet req "secret" with
          | some mc, some sc => (mc, sc)
          | _, _ => ("", "")

/-- The candidate list described by the spec sentence for `getHttpAuth`, in its
fixed precedence order. -/
def authCandidates (req : HttpRequest) : List (Option (String × String)) :=
  [splitPair (headerGet req "X-Tinode-Auth"),
   splitPair (headerGet req "Authorization"),
   (if queryGet req "auth" ≠ "" then
      some (queryGet req "auth", urlSafeToStd (queryGet req "secret"))
    else none),
   (if formValue req "auth" ≠ "" then
      some (formValue req "auth", formValue req "secret")
    else none),
   (match cookieGet req "auth", cookieGet req "secret" with
    | some mc, some sc => some (mc, sc)
    | _, _ => none)]

/-- First defined candidate, or the empty pair. -/
def firstCandidate : List (Option (String × String)) → String × String
  | [] => ("", "")
  | some p :: _ => p
  | none :: rest => firstCandidate rest

/-- The spec's description of `getHttpAuth`: the first well-formed pair from
the ordered candidate list; both components empty when none matches. -/
def getHttpAuthSpec (req : HttpRequest) : String × String :=
  firstCandidate (authCandidates req)

/-! ## HTTP server teardown (`listenAndServe`, http.go) -/

/-- One teardown action performed by `listenAndServe` after the stop signal.
`grpcServerGracefulStop` exists only to state that the code never emits it
(the source calls `Stop()`, not `GracefulStop()`). -/
inductive ShutdownStep where
  | setShuttingDown
  | httpServerShutdown (graceSeconds : Nat)
  | sessionStoreShutdown
  | waitListenerDone
  | cancelShutdownCtx
  | clusterNodeShutdown
  | pluginsShutdown
  | grpcServerStop
  | grpcServerGracefulStop
  | statsShutdown
  | hubSignalShutdown
  | waitHubDone
  | usersShutdown
deriving DecidableEq, Repr

/-- The straight-line teardown sequence executed by the `case <-stop` branch of
`listenAndServe`, in source order. `grpcConfigured` models
`globals.grpcServer != nil`. -/
def listenAndServeStopTeardown (grpcConfigured : Bool) : List ShutdownStep :=
  [ShutdownStep.setShuttingDown,
   ShutdownStep.httpServerShutdown 2,
   ShutdownStep.sessionStoreShutdown,
   ShutdownStep.waitListenerDone,
   ShutdownStep.cancelShutdownCtx,
   ShutdownStep.clusterNodeShutdown,
   ShutdownStep.pluginsShutdown]
  ++ (if grpcConfigured then [ShutdownStep.grpcServerStop] else [])
  ++ [ShutdownStep.statsShutdown,
      ShutdownStep.hubSignalShutdown,
      ShutdownStep.waitHubDone,
      ShutdownStep.usersShutdown]

/-! ## Proxy topic actor (topic_proxy part of http.go source bundle)

State of a proxy topic: the map of locally attached sessions (keyed by session
id; Go keys by `*Session`, which is in bijection with the sid for live
sessions), the last delivered sequence id, the idle-kill timer, and the global
session store (needed because the actor mutates per-session subscription sets
via `delSub` / `addSub` and resolves `OrigSid` through `sessionStore.Get`).

Omission: the `perUser` access-mode map and `updateAcsFromPresMsg` mutate only
`perUser`, which no other handler reads; they are not modelled. -/

/-- User ids; `0` is the zero (invalid/unauthenticated) uid, `IsZero`. -/
abbrev Uid := Nat

/-- `perSessionData`: what `t.sessions` stores per attached session. -/
structure PerSessionData where
  uid : Uid
  isChanSub : Bool
deriving DecidableEq, Repr

/-- The slice of a `Session` the proxy actor touches: its id, its own uid
(`sess.uid`), its subscription map (topic names), and whether
`sess.inflightReqs != nil`. -/
structure Session where
  sid : String
  uid : Uid
  subs : List String
  inflightNonNil : Bool
deriving DecidableEq, Repr

/-- `globals.sessionStore.Get(sid)`. -/
def storeGet (store : List Session) (sid : String) : Option Session :=
  match store with
  | [] => none
  | s :: rest => if s.sid = sid then some s else storeGet rest sid

/-- `sess.delSub(tname)`: remove the topic from the session's subscription
map. Modelled from the spec: `delSub` deletes the session-side subscription
entry for the topic (the session and topic detach on both sides). -/
def delSub (store : List Session) (sid tname : String) : List Session :=
  store.map (fun s =>
    if s.sid = sid then { s with subs := s.subs.filter (fun n => n ≠ tname) } else s)

/-- `sess.addSub(tname, sub)`: install the session-side subscription entry.
Modelled from the spec: installs a `Subscription` wiring the topic's channels;
only the topic-name key is observable here. -/
def addSub (store : List Session) (sid tname : String) : List Session :=
  store.map (fun s =>
    if s.sid = sid then { s with subs := tname :: s.subs.filter (fun n => n ≠ tname) } else s)

/-- Decimal digit value of a character. -/
def digitVal (c : Char) : Option Nat :=
  if '0' ≤ c ∧ c ≤ '9' then some (c.toNat - '0'.toNat) else none

/-- Decimal decoding accumulator. -/
def decodeDecAux : List Char → Nat → Option Nat
  | [], acc => some acc
  | c :: rest, acc =>
    match digitVal c with
    | some d => decodeDecAux rest (acc * 10 + d)
    | none => none

/-- Decimal decoding of a nonempty digit string. -/
def decodeDec : List Char → Option Nat
  | [] => none
  | c :: rest => decodeDecAux (c :: rest) 0

/-- `types.ParseUserId`. Modelled from the spec: decodes a `usrXXX` user id
string, returning the zero uid on any malformed input. -/
def ParseUserId (s : String) : Uid :=
  match s.toList with
  | 'u' :: 's' :: 'r' :: rest => (decodeDec rest).getD 0
  | _ => 0

/-- `types.IsChannel(topicName)`. Modelled from the spec: a channel topic name
carries the `chn` prefix. -/
def IsChannel (s : String) : Bool :=
  leadsWith ['c', 'h', 'n'] s.toList

/-- `idleProxyTopicTimeout`. Modelled from the spec: the named idle eviction
duration; its concrete value is irrelevant to every statement below. -/
def idleProxyTopicTimeout : Nat := 5

/-- The single-shot kill timer: `stopped` (after `Stop()` or after firing) or
`armed d` (after `Reset(d)`). -/
inductive TimerState where
  | stopped
  | armed (d : Nat)
deriving DecidableEq, Repr

/-- Topic fields the proxy actor reads or writes (minus `perUser`, see above). -/
structure Topic where
  name : String
  xoriginal : String
  catGrp : Bool
  isChan : Bool
  inactive : Bool
  sessions : List (String × PerSessionData)
  lastID : Nat
deriving DecidableEq, Repr

/-- `t.sessions[msg.sess]` lookup; a nil session pointer is never a map key. -/
def sessLookup (sessions : List (String × PerSessionData)) :
    Option String → Option PerSessionData
  | none => none
  | some sid => alookup sid sessions

/-- `t.remSession(sess, asUid)`. Modelled from the spec: removes the session
from `t.sessions` only when it is present and its per-session uid matches
`asUid` (the eviction broadcast removes exactly the sessions whose uid matches
`msg.uid`), returning the removed per-session data. -/
def remSession (sessions : List (String × PerSessionData)) (sess : Option String)
    (asUid : Uid) : Option PerSessionData × List (String × PerSessionData) :=
  match sess with
  | none => (none, sessions)
  | some sid =>
    match alookup sid sessions with
    | some pssd =>
      if pssd.uid = asUid then
        (some pssd, sessions.filter (fun p => p.1 ≠ sid))
      else (none, sessions)
    | none => (none, sessions)

/-- `t.addSession(sess, uid, isChanSub)`. Modelled from the spec: adds the
session to `t.sessions` with the uid supplied by the master (map assignment:
replaces any previous binding). -/
def addSession (sessions : List (String × PerSessionData)) (sid : String)
    (uid : Uid) (isChanSub : Bool) : List (String × PerSessionData) :=
  (sid, { uid := uid, isChanSub := isChanSub }) :: sessions.filter (fun p => p.1 ≠ sid)

/-- `t.original(uid)`. Modelled from the spec: the original topic name shown to
the given user (`xoriginal` for every case the proxy handles). -/
def Topic.originalName (t : Topic) (_ : Uid) : String :=
  t.xoriginal

/-- `types.GrpToChn`. Modelled from the spec: the channel alias of a group
topic name. -/
def GrpToChn (s : String) : String :=
  String.mk ('c' :: 'h' :: 'n' :: s.toList.drop 3)

/-- Proxy-to-master request kinds. -/
inductive ProxyReqType where
  | join
  | leave
  | broadcast
  | meta
  | call
  | meUserAgent
  | bgSession
deriving DecidableEq, Repr

/-- `MsgServerCtrl` fields the proxy reads. -/
structure MsgServerCtrl where
  code : Nat
  text : String
  topic : String
deriving DecidableEq, Repr

/-- `MsgServerData` fields the proxy reads. -/
structure MsgServerData where
  seqId : Nat
deriving DecidableEq, Repr

/-- `ServerComMessage` as the proxy sees it: payload sections (presence and
info carry no data the proxy reads beyond their presence), the uid attached by
the cluster (`msg.uid`), and `SkipSid`. -/
structure ServerComMessage where
  data : Option MsgServerData
  pres : Bool
  info : Bool
  ctrl : Option MsgServerCtrl
  uid : Uid
  skipSid : String
deriving DecidableEq, Repr

/-- `ClusterResp`. `srvMsg` is not an `Option`: `proxyMasterResponse`
dereferences `msg.SrvMsg` unconditionally on entry, so a non-nil payload is a
precondition of every non-panicking call (the `msg.SrvMsg != nil` test in the
leave branch is therefore redundant and always true here). -/
structure ClusterResp where
  srvMsg : ServerComMessage
  origSid : String
  origReqType : ProxyReqType
deriving DecidableEq, Repr

/-- `ClientComMessage` fields read by the proxy actor. `sess = none` is a nil
session pointer. -/
structure ClientComMessage where
  sess : Option String
  init : Bool
  asUser : String
  original : String
deriving DecidableEq, Repr

/-- Replies and payloads queued to a session. -/
inductive OutMsg where
  | errLocked
  | errClusterUnreachable
  | srv (m : ServerComMessage)
deriving DecidableEq, Repr

/-- Externally visible actions of the actor, in execution order. -/
inductive Effect where
  | routeToMaster (req : ProxyReqType) (sess : Option String) (ok : Bool)
  | routeIntraCluster
  | queueOut (sid : String) (m : OutMsg)
  | detachSession (sid : String) (tname : String)
  | inflightDone (sid : String)
  | topicProxyGone
  | exitDone
  | hubUnreg (tname : String)
deriving DecidableEq, Repr

/-- Full actor state: topic, kill timer, session store. -/
structure ProxyState where
  topic : Topic
  timer : TimerState
  store : List Session
deriving DecidableEq, Repr

/-- Result of `handleProxyLeaveRequest`: the Go bool result, the (possibly
mutated) `msg.init` flag, the new state and the effects. -/
structure LeaveOut where
  result : Bool
  msgInit : Bool
  st : ProxyState
  fx : List Effect
deriving DecidableEq, Repr

/-- The state left behind by the non-early-return path of
`handleProxyLeaveRequest` acting as `asUid`: the session is removed from
`t.sessions` via `remSession`, its session-side subscription is dropped via
`delSub` when the removal succeeded, and the kill timer is armed with
`idleProxyTopicTimeout` when the local set is empty afterwards. -/
def leaveAppliedState (st : ProxyState) (msg : ClientComMessage) (asUid : Uid) : ProxyState :=
  let t := st.topic
  let rem := remSession t.sessions msg.sess asUid
  let store1 :=
    match msg.sess with
    | some sid => if rem.1.isSome then delSub st.store sid t.name else st.store
    | none => st.store
  { topic := { t with sessions := rem.2 },
    timer := if rem.2.isEmpty then TimerState.armed idleProxyTopicTimeout else st.timer,
    store := store1 }

/-- `handleProxyLeaveRequest` (topic_proxy): resolve the acting uid (from
`AsUser` for client-initiated requests, else from the local per-session map,
failing fast when both give the zero uid), eagerly apply `leaveAppliedState`,
mark `msg.init` (the synthesized `Leave` envelope and the `Original` rewrite
affect only the forwarded payload, opaque here), and forward `ProxyReqLeave`
to the master — whose error, `routeOk = false`, is only logged. -/
def handleProxyLeaveRequest (st : ProxyState) (msg : ClientComMessage)
    (routeOk : Bool) : LeaveOut :=
  let asUid0 : Uid := if msg.init then ParseUserId msg.asUser else 0
  let resolved : Option Uid :=
    if asUid0 = 0 then
      match sessLookup st.topic.sessions msg.sess with
      | some pssd => some pssd.uid
      | none => none
    else some asUid0
  match resolved with
  | none =>
    { result := false, msgInit := msg.init, st := st, fx := [] }
  | some asUid =>
    { result := (remSession st.topic.sessions msg.sess asUid).1.isSome,
      msgInit := true,
      st := leaveAppliedState st msg asUid,
      fx := [Effect.routeToMaster ProxyReqType.leave msg.sess routeOk] }

/-- The `case msg := <-t.unreg` branch of `runProxy`, including the
error-reply branch and the inflight-counter decrement. For a nil session the
error-reply branch calls `msg.sess.queueOut` — a method call on a nil
receiver, whose body (`Session.queueOut`) lies outside the provided sources,
so the model abstains with `none` (undetermined behaviour, not an asserted
panic) — and the inflight decrement reads the field `msg.sess.inflightReqs`
whenever the (possibly mutated) `msg.init` is true, a certain nil dereference,
also `none`. Non-nil sessions always take a determined `some` path. -/
def unregStep (st : ProxyState) (msg : ClientComMessage) (routeOk : Bool) :
    Option (ProxyState × List Effect) :=
  let out := handleProxyLeaveRequest st msg routeOk
  let errFx : Option (List Effect) :=
    if out.result then some []
    else
      match msg.sess with
      | some sid => some [Effect.queueOut sid OutMsg.errClusterUnreachable]
      | none => none
  match errFx with
  | none => none
  | some fx1 =>
    if out.msgInit then
      match msg.sess with
      | none => none
      | some sid =>
        let fx2 :=
          match storeGet st.store sid with
          | some s => if s.inflightNonNil then [Effect.inflightDone sid] else []
          | none => []
        some (out.st, out.fx ++ fx1 ++ fx2)
    else some (out.st, out.fx ++ fx1)

/-- The `case msg := <-t.reg` branch of `runProxy`: reply `ErrLocked` when the
topic is inactive, otherwise forward `ProxyReqJoin`; reply
`ErrClusterUnreachable` on forward failure; finally decrement the session's
inflight counter. Every nil-session path reaches a `msg.sess.queueOut` call
(nil-receiver method call, body outside the provided sources) or the
unconditional `msg.sess.inflightReqs` field read (a certain nil dereference),
so the model abstains with `none` on all of them. -/
def regStep (st : ProxyState) (msg : ClientComMessage) (routeOk : Bool) :
    Option (ProxyState × List Effect) :=
  let fx1 : Option (List Effect) :=
    if st.topic.inactive then
      match msg.sess with
      | some sid => some [Effect.queueOut sid OutMsg.errLocked]
      | none => none
    else if routeOk then some [Effect.routeToMaster ProxyReqType.join msg.sess true]
    else
      match msg.sess with
      | some sid =>
        some [Effect.routeToMaster ProxyReqType.join msg.sess false,
              Effect.queueOut sid OutMsg.errClusterUnreachable]
      | none => none
  match fx1, msg.sess with
  | some fx, some sid =>
    let fx2 :=
      match storeGet st.store sid with
      | some s => if s.inflightNonNil then [Effect.inflightDone sid] else []
      | none => []
    some (st, fx ++ fx2)
  | _, _ => none

/-- `handleProxyBroadcast`: drop the message when the topic is inactive;
otherwise record `Data.SeqId` as the topic's `lastID` (plain assignment) and
broadcast to every locally attached session. -/
def handleProxyBroadcast (t : Topic) (m : ServerComMessage) : Topic × List Effect :=
  if t.inactive then (t, [])
  else
    let t1 :=
      match m.data with
      | some d => { t with lastID := d.seqId }
      | none => t
    (t1, t.sessions.map (fun p => Effect.queueOut p.1 (OutMsg.srv m)))

/-- The `for sess := range t.sessions` eviction loop of `proxyCtrlBroadcast`:
iterate over the attached sessions, removing each one whose uid matches via
`remSession`, detaching it session-side, and queueing the eviction ctrl to it
unless its sid equals `SkipSid`. -/
def evictLoop (tname skip : String) (m : ServerComMessage) :
    List String → List (String × PerSessionData) →
    List (String × PerSessionData) × List Effect
  | [], cur => (cur, [])
  | sid :: rest, cur =>
    match remSession cur (some sid) m.uid with
    | (some _, cur1) =>
      let r := evictLoop tname skip m rest cur1
      (r.1,
       (Effect.detachSession sid tname ::
          (if sid ≠ skip then [Effect.queueOut sid (OutMsg.srv m)] else [])) ++ r.2)
    | (none, cur1) => evictLoop tname skip m rest cur1

/-- `proxyCtrlBroadcast`: on a `Ctrl` with code 205 (`http.StatusResetContent`)
and text `"evicted"`, panic (`none`) on a zero uid, otherwise run the eviction
loop; any other ctrl broadcast is ignored. -/
def proxyCtrlBroadcast (st : ProxyState) (m : ServerComMessage) :
    Option (ProxyState × List Effect) :=
  match m.ctrl with
  | none => some (st, [])
  | some c =>
    if c.code = 205 ∧ c.text = "evicted" then
      if m.uid = 0 then none
      else
        let r := evictLoop st.topic.name m.skipSid m
          (st.topic.sessions.map Prod.fst) st.topic.sessions
        some ({ st with topic := { st.topic with sessions := r.1 } }, r.2)
    else some (st, [])

/-- The state transition a directed (non-broadcast) master response applies:
the `switch msg.OrigReqType` of `proxyMasterResponse`. A join success attaches
the session (master-supplied uid, `isChanSub` from the ctrl topic name),
installs the session-side subscription, and stops the kill timer; a join
refusal arms the timer when the local set is empty; a leave success removes
the session (keyed by the stored session's own uid) and any leave response
arms the timer when the set is empty; other request kinds change nothing. -/
def proxyDirectedState (st : ProxyState) (resp : ClusterResp) : ProxyState :=
  let m := resp.srvMsg
  let sessO := storeGet st.store resp.origSid
  match resp.origReqType with
  | ProxyReqType.join =>
    match sessO, m.ctrl with
    | some _, some c =>
      if c.code < 300 then
        let t := st.topic
        { topic := { t with
            sessions := addSession t.sessions resp.origSid m.uid (IsChannel c.topic) },
          timer := TimerState.stopped,
          store := addSub st.store resp.origSid t.name }
      else if st.topic.sessions.isEmpty then
        { st with timer := TimerState.armed idleProxyTopicTimeout }
      else st
    | _, _ => st
  | ProxyReqType.leave =>
    match m.ctrl with
    | some c =>
      let st1 :=
        if c.code < 300 then
          match sessO with
          | some sess =>
            let rem := remSession st.topic.sessions (some resp.origSid) sess.uid
            { st with topic := { st.topic with sessions := rem.2 } }
          | none => st
        else st
      if st1.topic.sessions.isEmpty then
        { st1 with timer := TimerState.armed idleProxyTopicTimeout }
      else st1
    | none => st
  | _ => st

/-- `proxyMasterResponse`: dispatch a master response. Broadcasts
(`OrigSid == "*"`) go to `handleProxyBroadcast` or `proxyCtrlBroadcast`;
directed responses resolve the session, apply `proxyDirectedState`, and queue
the payload to the session when it is still alive. (The `Pres`/acs side
effect touches only the unmodelled `perUser` map.) -/
def proxyMasterResponse (st : ProxyState) (resp : ClusterResp) :
    Option (ProxyState × List Effect) :=
  let m := resp.srvMsg
  if resp.origSid = "*" then
    if m.pres || m.data.isSome || m.info then
      let r := handleProxyBroadcast st.topic m
      some ({ st with topic := r.1 }, r.2)
    else
      match m.ctrl with
      | some _ => proxyCtrlBroadcast st m
      | none => some (st, [])
  else
    let stepped := proxyDirectedState st resp
    match storeGet st.store resp.origSid with
    | some _ => some (stepped, [Effect.queueOut resp.origSid (OutMsg.srv m)])
    | none => some (stepped, [])

/-- A session-update request (`case upd := <-t.supd`). -/
structure SessUpdate where
  sess : Option String
  userAgent : String
deriving DecidableEq, Repr

/-- One inbound event of the proxy actor's eight-way selection, tagged with
the success oracle of the cluster call it may perform. -/
inductive PEvent where
  | reg (msg : ClientComMessage) (routeOk : Bool)
  | unreg (msg : ClientComMessage) (routeOk : Bool)
  | clientMsg (msg : ClientComMessage) (routeOk : Bool)
  | serverMsg (m : ServerComMessage)
  | meta (msg : ClientComMessage) (routeOk : Bool)
  | supd (upd : SessUpdate) (routeOk : Bool)
  | proxy (resp : ClusterResp)
  | timerFire
  | topicExit
deriving DecidableEq, Repr

/-- One iteration of the `runProxy` event loop. `none` marks an iteration
without a determined outcome: a nil-session branch (nil-receiver `queueOut`
calls are undetermined, the `inflightReqs` field read is a certain panic — see
`regStep`/`unregStep`), the certain `Panicf` on an eviction broadcast with a
zero uid, or a `timerFire` while the timer is not armed (impossible: the
single-shot timer only fires armed, and firing leaves it spent). -/
def pstep (st : ProxyState) : PEvent → Option (ProxyState × List Effect)
  | PEvent.reg msg routeOk => regStep st msg routeOk
  | PEvent.unreg msg routeOk => unregStep st msg routeOk
  | PEvent.clientMsg msg routeOk =>
    if routeOk then some (st, [Effect.routeToMaster ProxyReqType.broadcast msg.sess true])
    else
      match msg.sess with
      | some sid =>
        some (st, [Effect.routeToMaster ProxyReqType.broadcast msg.sess false,
                   Effect.queueOut sid OutMsg.errClusterUnreachable])
      | none => none
  | PEvent.serverMsg m =>
    if m.info || m.pres then some (st, [Effect.routeIntraCluster])
    else some (st, [])
  | PEvent.meta msg routeOk =>
    if routeOk then some (st, [Effect.routeToMaster ProxyReqType.meta msg.sess true])
    else
      match msg.sess with
      | some sid =>
        some (st, [Effect.routeToMaster ProxyReqType.meta msg.sess false,
                   Effect.queueOut sid OutMsg.errClusterUnreachable])
      | none => none
  | PEvent.supd upd routeOk =>
    match upd.sess with
    | none => some (st, [Effect.routeToMaster ProxyReqType.meUserAgent none routeOk])
    | some sid =>
      match sessLookup st.topic.sessions (some sid) with
      | none => some (st, [])
      | some _ => some (st, [Effect.routeToMaster ProxyReqType.bgSession (some sid) routeOk])
  | PEvent.proxy resp => proxyMasterResponse st resp
  | PEvent.timerFire =>
    match st.timer with
    | TimerState.armed _ => some ({ st with timer := TimerState.stopped },
                                  [Effect.hubUnreg st.topic.name])
    | TimerState.stopped => none
  | PEvent.topicExit =>
    some (st,
      st.topic.sessions.map (fun p => Effect.detachSession p.1 st.topic.name)
        ++ [Effect.topicProxyGone, Effect.exitDone])

/-- Run a sequence of events, aborting (`none`) at the first step without a
determined outcome. -/
def runP (st : ProxyState) : List PEvent → Option ProxyState
  | [] => some st
  | e :: rest =>
    match pstep st e with
    | some (st1, _) => runP st1 rest
    | none => none

/-- The fast-failure guard of `handleProxyLeaveRequest`: a zero resolved uid
together with an unknown session makes it return `false` without contacting
the cluster. -/
def leaveEarlyReturn (st : ProxyState) (msg : ClientComMessage) : Bool :=
  decide ((if msg.init then ParseUserId msg.asUser else 0) = 0
    ∧ sessLookup st.topic.sessions msg.sess = none)

/-- The initial actor state of `runProxy`: fresh timer immediately stopped. -/
def initProxyState (t : Topic) (store : List Session) : ProxyState :=
  { topic := t, timer := TimerState.stopped, store := store }

/-! ## Media upload handler (`largeFileReceive`, unnamed/part_000) -/

/-- Outcome of `authHttpRequest`: an error, a challenge, or a uid (possibly
zero). -/
inductive AuthOutcome where
  | authErr
  | challenge
  | uid (u : Uid)
deriving DecidableEq, Repr

/-- The multipart file part returned by `req.FormFile("file")`: its content
bytes and the client-provided `Content-Type` header. -/
structure FilePart where
  content : List Nat
  contentTypeHdr : String
deriving DecidableEq, Repr

/-- Result of `req.FormFile("file")`: the error text, or the file part. -/
inductive FormFileResult where
  | fileErr (text : String)
  | filePart (f : FilePart)
deriving DecidableEq, Repr

/-- An upload request together with the oracles for every external call the
handler makes (auth backend, media handler `Headers`/`Upload`,
`Files.FinishUpload`, MIME sniffing by `http.DetectContentType`, media-type
parsing). `headersOutcome = some st` is a successful `mh.Headers` call
returning status `st`; `none` is its error return. `formFile` is
`req.FormFile("file")`: either an error text or the file part. -/
structure UploadRequest where
  method : String
  apiKeyValid : Bool
  auth : AuthOutcome
  topicField : String
  headersOutcome : Option Nat
  formFile : FormFileResult
  sniffedMime : String
  parsedUserMime : Option String
  seekOk : Bool
  uploadResult : Option (String × Nat)
  finishOk : Bool
  mediaGcPeriod : Nat
deriving DecidableEq, Repr

/-- The JSON control envelope (or header-only reply) `largeFileReceive`
produces. -/
inductive UploadResponse where
  | preflight (status : Nat)
  | errOperationNotAllowed
  | errAPIKeyRequired
  | storeError
  | infoChallenge
  | errAuthRequired
  | ctrlStatus (code : Nat)
  | okHead
  | errTooLarge
  | errMalformed
  | errUnknown
  | noErrParams (hasExpires : Bool)
deriving DecidableEq, Repr

/-- Which backend mutations `largeFileReceive` performed. -/
structure UploadOutcome where
  response : UploadResponse
  uploadCalled : Bool
  finishUploadCalled : Bool
  deleteCalled : Bool
deriving DecidableEq, Repr

/-- `allowedMimeTypes` from unnamed/part_000. -/
def allowedMimeTypes : List String :=
  ["application/", "audio/", "font/", "image/", "text/", "video/"]

/-- The loop over `allowedMimeTypes` accepting a client content type only when
its top-level prefix is allow-listed. -/
def acceptUserMime (userContentType : String) : Bool :=
  allowedMimeTypes.any (fun allowed => leadsWith allowed.toList userContentType.toList)

/-- The first `file.Read(buff)` of the 512-byte sniff buffer: Go returns an
immediate error (`io.EOF`) exactly when the part cannot supply any bytes. -/
def firstReadFails (f : FilePart) : Bool :=
  f.content.isEmpty

/-- `largeFileReceive` (unnamed/part_000), from the method gate on: CORS
preflight, method check, API-key check, authentication (unauthenticated
uploads pass only with `topic=newacc`), backend `Headers` short-circuit, HEAD
reply, multipart extraction (`ErrTooLarge` on the body-size cap, detected by
the `"request body too large"` substring, `ErrMalformed` otherwise), MIME
sniff of the first 512 bytes (`ErrUnknown` when the first read fails), rewind
(`ErrUnknown` on failure), backend `Upload` (on failure `FinishUpload(false)`
then the decoded store error), `FinishUpload(true)` (on failure best-effort
`Delete`), and finally the success envelope whose params carry `expires` iff
the media GC period is positive. -/
def largeFileReceive (req : UploadRequest) : UploadOutcome :=
  if req.method = "OPTIONS" then
    match req.headersOutcome with
    | none => { response := UploadResponse.storeError, uploadCalled := false,
                finishUploadCalled := false, deleteCalled := false }
    | some st0 =>
      { response := UploadResponse.preflight (if st0 = 0 then 204 else st0),
        uploadCalled := false, finishUploadCalled := false, deleteCalled := false }
  else if ¬ (req.method = "POST" ∨ req.method = "PUT" ∨ req.method = "HEAD") then
    { response := UploadResponse.errOperationNotAllowed, uploadCalled := false,
      finishUploadCalled := false, deleteCalled := false }
  else if ¬ req.apiKeyValid then
    { response := UploadResponse.errAPIKeyRequired, uploadCalled := false,
      finishUploadCalled := false, deleteCalled := false }
  else
    match req.auth with
    | AuthOutcome.authErr =>
      { response := UploadResponse.storeError, uploadCalled := false,
        finishUploadCalled := false, deleteCalled := false }
    | AuthOutcome.challenge =>
      { response := UploadResponse.infoChallenge, uploadCalled := false,
        finishUploadCalled := false, deleteCalled := false }
    | AuthOutcome.uid u =>
      if u = 0 ∧ req.topicField ≠ "newacc" then
        { response := UploadResponse.errAuthRequired, uploadCalled := false,
          finishUploadCalled := false, deleteCalled := false }
      else
        match req.headersOutcome with
        | none =>
          { response := UploadResponse.storeError, uploadCalled := false,
            finishUploadCalled := false, deleteCalled := false }
        | some st0 =>
          if st0 ≠ 0 then
            { response := UploadResponse.ctrlStatus st0, uploadCalled := false,
              finishUploadCalled := false, deleteCalled := false }
          else if req.method = "HEAD" then
            { response := UploadResponse.okHead, uploadCalled := false,
              finishUploadCalled := false, deleteCalled := false }
          else
            match req.formFile with
            | FormFileResult.fileErr errText =>
              if strContains errText "request body too large" then
                { response := UploadResponse.errTooLarge, uploadCalled := false,
                  finishUploadCalled := false, deleteCalled := false }
              else
                { response := UploadResponse.errMalformed, uploadCalled := false,
                  finishUploadCalled := false, deleteCalled := false }
            | FormFileResult.filePart f =>
              if firstReadFails f then
                { response := UploadResponse.errUnknown, uploadCalled := false,
                  finishUploadCalled := false, deleteCalled := false }
              else
                -- MIME resolution: sniffed type, with the allow-listed client
                -- type as fallback from application/octet-stream. The resolved
                -- value only feeds the FileDef, unobserved below.
                let _mime :=
                  if req.sniffedMime = "application/octet-stream" then
                    match req.parsedUserMime with
                    | some u => if acceptUserMime u then u else req.sniffedMime
                    | none => req.sniffedMime
                  else req.sniffedMime
                if ¬ req.seekOk then
                  { response := UploadResponse.errUnknown, uploadCalled := false,
                    finishUploadCalled := false, deleteCalled := false }
                else
                  match req.uploadResult with
                  | none =>
                    { response := UploadResponse.storeError, uploadCalled := true,
                      finishUploadCalled := true, deleteCalled := false }
                  | some _ =>
                    if ¬ req.finishOk then
                      { response := UploadResponse.storeError, uploadCalled := true,
                        finishUploadCalled := true, deleteCalled := true }
                    else
                      { response := UploadResponse.noErrParams (req.mediaGcPeriod > 0),
                        uploadCalled := true, finishUploadCalled := true,
                        deleteCalled := false }

/-! ## Media orphan garbage collector (`largeFileRunGarbageCollection`) -/

/-- The jittered tick period computed once at startup:
`(period >> 1) + (period >> 2) + r` where `r` models
`rand.Intn(int(period >> 1))`, i.e. `r < period / 2`. -/
def gcJitterPeriod (period r : Nat) : Nat :=
  period / 2 + period / 4 + r

/-- Fire time of the `k`-th tick (0-based) of `time.Tick(p)` started at 0 with
the jittered period `p`. -/
def gcTickTime (period r k : Nat) : Nat :=
  (k + 1) * gcJitterPeriod period r

/-- A stored media file as the GC sees it. -/
structure StoredFile where
  id : Nat
  attached : Bool
  uploadedAt : Nat
deriving DecidableEq, Repr

/-- `store.Files.DeleteUnused(olderThan, limit)`. Modelled from the spec:
deletes at most `limit` files that were uploaded but never attached and are at
least as old as the cutoff. -/
def deleteUnused (olderThan limit : Nat) : List StoredFile → List StoredFile
  | [] => []
  | f :: rest =>
    if limit = 0 then f :: rest
    else if ¬ f.attached ∧ f.uploadedAt ≤ olderThan then
      deleteUnused olderThan (limit - 1) rest
    else f :: deleteUnused olderThan limit rest

/-- One hour, in seconds. -/
def hourSecs : Nat := 3600

/-- What reaches the GC goroutine's `select`: a tick observed at absolute time
`now`, or a send on the stop channel. -/
inductive GcEvent where
  | tick (now : Nat)
  | stop
deriving DecidableEq, Repr

/-- The GC loop body: each tick deletes up to `blockSize` unused files older
than one hour; a stop event returns immediately, processing nothing further. -/
def gcRun (blockSize : Nat) : List GcEvent → List StoredFile → List StoredFile
  | [], files => files
  | GcEvent.stop :: _, files => files
  | GcEvent.tick now :: rest, files =>
    gcRun blockSize rest (deleteUnused (now - hourSecs) blockSize files)

/-! ## Helper lemmas -/

theorem alookup_filter_self {α : Type} (sid : String) (l : List (String × α)) :
    alookup sid (l.filter (fun p => p.1 ≠ sid)) = none := by
  induction l with
  | nil => rfl
  | cons p rest ih =>
    by_cases h : p.1 = sid
    · simpa [List.filter_cons, h] using ih
    · simpa [List.filter_cons, h, alookup] using ih

theorem alookup_none_filter {α : Type} (sid : String) (q : (String × α) → Bool)
    (l : List (String × α)) (h : alookup sid l = none) :
    alookup sid (l.filter q) = none := by
  induction l with
  | nil => rfl
  | cons p rest ih =>
    unfold alookup at h
    by_cases hp : p.1 = sid
    · simp [hp] at h
    · rw [if_neg hp] at h
      by_cases hq : q p
      · simp [List.filter_cons, hq, alookup, hp]
        exact ih h
      · simp [List.filter_cons, hq]
        exact ih h

theorem filter_ne_nil_of_ne_nil {α : Type} (q : α → Bool) (l : List α)
    (h : l.filter q ≠ []) : l ≠ [] := by
  intro hl
  rw [hl] at h
  exact h rfl

theorem unregStep_isSome_of_sess_some (st : ProxyState) (msg : ClientComMessage)
    (routeOk : Bool) (sid : String) (hs : msg.sess = some sid) :
    (unregStep st msg routeOk).isSome = true := by
  unfold unregStep
  rw [hs]
  by_cases hr : (handleProxyLeaveRequest st msg routeOk).result <;>
    by_cases hi : (handleProxyLeaveRequest st msg routeOk).msgInit <;>
      simp [hr, hi]

theorem unregStep_fst (st : ProxyState) (msg : ClientComMessage) (routeOk : Bool)
    (r : ProxyState × List Effect) (h : unregStep st msg routeOk = some r) :
    r.1 = (handleProxyLeaveRequest st msg routeOk).st := by
  unfold unregStep at h
  cases hs : msg.sess <;> rw [hs] at h <;>
    by_cases hr : (handleProxyLeaveRequest st msg routeOk).result <;>
      by_cases hi : (handleProxyLeaveRequest st msg routeOk).msgInit <;>
        simp [hr, hi] at h <;> rw [← h]

/-! ## C9: stray leave replies ErrClusterUnreachable without a cluster call -/

/-- C9: an unreg event for a session that is not in the local session set and
whose resolved AsUser uid is zero makes no cluster call at all, leaves the
actor state unchanged, and still replies `ErrClusterUnreachable` to the
session. -/
theorem stray_leave_no_cluster_call (st : ProxyState) (msg : ClientComMessage)
    (routeOk : Bool) (sid : String)
    (hs : msg.sess = some sid)
    (hz : (if msg.init then ParseUserId msg.asUser else 0) = 0)
    (hn : alookup sid st.topic.sessions = none) :
    ∃ fx, unregStep st msg routeOk = some (st, fx) ∧
      Effect.queueOut sid OutMsg.errClusterUnreachable ∈ fx ∧
      (∀ req so ok, Effect.routeToMaster req so ok ∉ fx) := by
  have hout : handleProxyLeaveRequest st msg routeOk =
      { result := false, msgInit := msg.init, st := st, fx := [] } := by
    unfold handleProxyLeaveRequest
    simp [hz, hs, sessLookup, hn]
  by_cases hi : msg.init
  · cases hsg : storeGet st.store sid with
    | none =>
      refine ⟨[Effect.queueOut sid OutMsg.errClusterUnreachable], ?_, by simp, by simp⟩
      unfold unregStep
      rw [hout, hs]
      simp [hi, hsg]
    | some sess =>
      by_cases hfl : sess.inflightNonNil
      · refine ⟨[Effect.queueOut sid OutMsg.errClusterUnreachable,
                 Effect.inflightDone sid], ?_, by simp, by simp⟩
        unfold unregStep
        rw [hout, hs]
        simp [hi, hsg, hfl]
      · refine ⟨[Effect.queueOut sid OutMsg.errClusterUnreachable], ?_, by simp, by simp⟩
        unfold unregStep
        rw [hout, hs]
        simp [hi, hsg, hfl]
  · refine ⟨[Effect.queueOut sid OutMsg.errClusterUnreachable], ?_, by simp, by simp⟩
    unfold unregStep
    rw [hout, hs]
    simp [hi]

/-- Concrete state for the stray-leave witness: the session lives in the
session store but is not attached to the topic. -/
def c9St : ProxyState :=
  { topic := { name := "grpS", xoriginal := "grpS", catGrp := true, isChan := false,
               inactive := false, sessions := [], lastID := 0 },
    timer := TimerState.stopped,
    store := [{ sid := "s1", uid := 4, subs := [], inflightNonNil := false }] }

/-- Witness: the C9 statement at a concrete stray (duplicate) leave. -/
theorem stray_leave_no_cluster_call_witness :
    ∃ fx, unregStep c9St
        { sess := some "s1", init := false, asUser := "", original := "" } true =
        some (c9St, fx) ∧
      Effect.queueOut "s1" OutMsg.errClusterUnreachable ∈ fx ∧
      (∀ req so ok, Effect.routeToMaster req so ok ∉ fx) :=
  stray_leave_no_cluster_call c9St
    { sess := some "s1", init := false, asUser := "", original := "" } true "s1"
    rfl rfl rfl

theorem storeGet_delSub (store : List Session) (sid tname : String) (sess : Session)
    (h : storeGet (delSub store sid tname) sid = some sess) : tname ∉ sess.subs := by
  induction store with
  | nil => cases h
  | cons s rest ih =>
    unfold delSub at h
    simp only [List.map_cons] at h
    by_cases hsid : s.sid = sid
    · rw [if_pos hsid] at h
      unfold storeGet at h
      simp only [hsid, if_pos] at h
      have hx := Option.some.inj h
      rw [← hx]
      intro hmem
      have := List.of_mem_filter hmem
      simp at this
    · rw [if_neg hsid] at h
      unfold storeGet at h
      rw [if_neg hsid] at h
      exact ih h

theorem handleLeave_route_indep (st : ProxyState) (msg : ClientComMessage) (a b : Bool) :
    (handleProxyLeaveRequest st msg a).st = (handleProxyLeaveRequest st msg b).st := by
  unfold handleProxyLeaveRequest
  by_cases h0 : (if msg.init then ParseUserId msg.asUser else 0) = 0
  · cases hl : sessLookup st.topic.sessions msg.sess <;> simp [h0, hl]
  · simp [h0]

theorem handleLeave_st_of_attached (st : ProxyState) (msg : ClientComMessage)
    (routeOk : Bool) (sid : String) (pssd : PerSessionData)
    (hs : msg.sess = some sid)
    (hin : alookup sid st.topic.sessions = some pssd)
    (hres : (if msg.init then ParseUserId msg.asUser else 0) = 0
          ∨ (if msg.init then ParseUserId msg.asUser else 0) = pssd.uid) :
    (handleProxyLeaveRequest st msg routeOk).st = leaveAppliedState st msg pssd.uid := by
  unfold handleProxyLeaveRequest
  rcases hres with h0 | hu
  · simp [h0, hs, sessLookup, hin]
  · by_cases h0 : (if msg.init then ParseUserId msg.asUser else 0) = 0
    · simp [h0, hs, sessLookup, hin]
    · rw [hu] at h0
      simp [hu, h0, hs, sessLookup, hin]

theorem remSession_of_match (l : List (String × PerSessionData)) (sid : String)
    (pssd : PerSessionData) (hin : alookup sid l = some pssd) :
    remSession l (some sid) pssd.uid =
      (some pssd, l.filter (fun p => p.1 ≠ sid)) := by
  unfold remSession
  simp [hin]

theorem leaveAppliedState_of_match (st : ProxyState) (msg : ClientComMessage)
    (sid : String) (pssd : PerSessionData)
    (hs : msg.sess = some sid)
    (hin : alookup sid st.topic.sessions = some pssd) :
    leaveAppliedState st msg pssd.uid =
      { topic := { st.topic with
          sessions := st.topic.sessions.filter (fun p => p.1 ≠ sid) },
        timer := if (st.topic.sessions.filter (fun p => p.1 ≠ sid)).isEmpty
                 then TimerState.armed idleProxyTopicTimeout else st.timer,
        store := delSub st.store sid st.topic.name } := by
  simp [leaveAppliedState, hs, remSession_of_match st.topic.sessions sid pssd hin]
  rw [hs, remSession_of_match st.topic.sessions sid pssd hin]

theorem remSession_snd_absent (l : List (String × PerSessionData)) (s : Option String)
    (u : Uid) (sid : String) (h : alookup sid l = none) :
    alookup sid (remSession l s u).2 = none := by
  unfold remSession
  cases s with
  | none => simpa using h
  | some sid2 =>
    cases hl : alookup sid2 l with
    | none => simp only [hl]; exact h
    | some pssd =>
      simp only [hl]
      by_cases hu : pssd.uid = u
      · rw [if_pos hu]
        exact alookup_none_filter sid _ l h
      · rw [if_neg hu]
        exact h

theorem proxyDirectedState_leave_no_readd (st : ProxyState) (resp : ClusterResp)
    (sid : String)
    (ht : resp.origReqType = ProxyReqType.leave)
    (habs : alookup sid st.topic.sessions = none) :
    alookup sid (proxyDirectedState st resp).topic.sessions = none := by
  unfold proxyDirectedState
  simp only [ht]
  cases hc : resp.srvMsg.ctrl with
  | none => simp only [hc]; exact habs
  | some c =>
    simp only [hc]
    by_cases hcode : c.code < 300
    · rw [if_pos hcode]
      cases hsg : storeGet st.store resp.origSid with
      | none =>
        simp only [hsg]
        split <;> simpa using habs
      | some sess =>
        simp only [hsg]
        split <;> simpa using remSession_snd_absent st.topic.sessions
          (some resp.origSid) sess.uid sid habs
    · rw [if_neg hcode]
      split <;> simpa using habs

theorem pstep_proxy_directed (st : ProxyState) (resp : ClusterResp)
    (st1 : ProxyState) (fx : List Effect)
    (hns : resp.origSid ≠ "*") (h : pstep st (PEvent.proxy resp) = some (st1, fx)) :
    st1 = proxyDirectedState st resp := by
  simp only [pstep, proxyMasterResponse] at h
  rw [if_neg hns] at h
  cases hsg : storeGet st.store resp.origSid <;> rw [hsg] at h <;> simp at h <;>
    exact h.1.symm

/-! ## C1: eager detach on unreg -/

/-- Concrete state for the C1 counterexample: session `s1` attached with
per-session uid 1. -/
def c1St : ProxyState :=
  { topic := { name := "grpX", xoriginal := "grpX", catGrp := true, isChan := false,
               inactive := false, sessions := [("s1", { uid := 1, isChanSub := false })],
               lastID := 0 },
    timer := TimerState.stopped,
    store := [{ sid := "s1", uid := 1, subs := ["grpX"], inflightNonNil := false }] }

/-- A client-initiated unreg whose `AsUser` names uid 2 while `s1`'s
per-session uid is 1. -/
def c1Msg : ClientComMessage :=
  { sess := some "s1", init := true, asUser := "usr2", original := "grpX" }

/-- C1 counterexample: the unreg event for `(T, s1)` above is handled without
panic, the forward to the master is even attempted, yet `s1` is still present
in `T.sessions` afterwards — `remSession` removes a session only when the
acting uid matches the stored per-session uid, so the claim's unconditional
"S is absent from T.sessions after any unreg event for (T, S)" fails at this
input. -/
theorem unreg_mismatched_uid_keeps_session :
    (unregStep c1St c1Msg true).isSome = true ∧
    (unregStep c1St c1Msg true).map (fun r => alookup "s1" r.1.topic.sessions) =
      some (some { uid := 1, isChanSub := false }) ∧
    (unregStep c1St c1Msg true).map (fun r => alookup "s1" r.1.topic.sessions) ≠
      some none := by
  refine ⟨by decide, by decide, by decide⟩

/-- C1 (amended): for an unreg event for `(T, S)` with `S` locally attached
and an acting uid that matches `S`'s per-session uid — i.e. any unreg that is
not client-initiated, or is client-initiated with a zero or matching `AsUser`
uid — after the event is handled `S` is absent from `T.sessions` and `T`'s
name is gone from `S`'s subscriptions, and the resulting state is the same
whether the forward of `ProxyReqLeave` to the master succeeds or fails; a
leave response arriving later (whatever its Ctrl code, in particular any code
at or above 300) never re-adds a session that is absent. -/
theorem unreg_detach_amended (st : ProxyState) (msg : ClientComMessage) (routeOk : Bool)
    (sid : String) (pssd : PerSessionData)
    (hs : msg.sess = some sid)
    (hin : alookup sid st.topic.sessions = some pssd)
    (hres : (if msg.init then ParseUserId msg.asUser else 0) = 0
          ∨ (if msg.init then ParseUserId msg.asUser else 0) = pssd.uid) :
    (∃ st1 fx, unregStep st msg routeOk = some (st1, fx) ∧
        alookup sid st1.topic.sessions = none ∧
        (∀ sess, storeGet st1.store sid = some sess → st.topic.name ∉ sess.subs) ∧
        (∀ rOk2 st2 fx2, unregStep st msg rOk2 = some (st2, fx2) → st2 = st1)) ∧
    (∀ st2 resp st3 fx3,
        resp.origSid ≠ "*" → resp.origReqType = ProxyReqType.leave →
        pstep st2 (PEvent.proxy resp) = some (st3, fx3) →
        alookup sid st2.topic.sessions = none →
        alookup sid st3.topic.sessions = none) := by
  have happ := handleLeave_st_of_attached st msg routeOk sid pssd hs hin hres
  have hmatch := leaveAppliedState_of_match st msg sid pssd hs hin
  constructor
  · have hsome := unregStep_isSome_of_sess_some st msg routeOk sid hs
    obtain ⟨r, hr⟩ := Option.isSome_iff_exists.mp hsome
    obtain ⟨st1, fx⟩ := r
    have h1 : st1 = (handleProxyLeaveRequest st msg routeOk).st :=
      unregStep_fst st msg routeOk (st1, fx) hr
    refine ⟨st1, fx, hr, ?_, ?_, ?_⟩
    · rw [h1, happ, hmatch]
      exact alookup_filter_self sid st.topic.sessions
    · intro sess hsg
      rw [h1, happ, hmatch] at hsg
      exact storeGet_delSub st.store sid st.topic.name sess hsg
    · intro rOk2 st2 fx2 h2
      have h2f : st2 = (handleProxyLeaveRequest st msg rOk2).st :=
        unregStep_fst st msg rOk2 (st2, fx2) h2
      rw [h1, h2f, handleLeave_route_indep st msg rOk2 routeOk]
  · intro st2 resp st3 fx3 hns ht hstep habs
    rw [pstep_proxy_directed st2 resp st3 fx3 hns hstep]
    exact proxyDirectedState_leave_no_readd st2 resp sid ht habs

/-- Witness: the amended C1 statement at a concrete server-initiated unreg of
an attached session. -/
theorem unreg_detach_amended_witness :
    (∃ st1 fx, unregStep c1St
          { sess := some "s1", init := false, asUser := "", original := "" } true =
          some (st1, fx) ∧
        alookup "s1" st1.topic.sessions = none ∧
        (∀ sess, storeGet st1.store "s1" = some sess → c1St.topic.name ∉ sess.subs) ∧
        (∀ rOk2 st2 fx2, unregStep c1St
            { sess := some "s1", init := false, asUser := "", original := "" } rOk2 =
            some (st2, fx2) → st2 = st1)) ∧
    (∀ st2 resp st3 fx3,
        resp.origSid ≠ "*" → resp.origReqType = ProxyReqType.leave →
        pstep st2 (PEvent.proxy resp) = some (st3, fx3) →
        alookup "s1" st2.topic.sessions = none →
        alookup "s1" st3.topic.sessions = none) :=
  unreg_detach_amended c1St
    { sess := some "s1", init := false, asUser := "", original := "" } true
    "s1" { uid := 1, isChanSub := false } rfl rfl (Or.inl rfl)

/-! ## C6: eviction broadcast -/

theorem alookup_none_of_not_mem_keys {α : Type} (k : String) (l : List (String × α))
    (h : k ∉ l.map Prod.fst) : alookup k l = none := by
  induction l with
  | nil => rfl
  | cons p rest ih =>
    simp only [List.map_cons, List.mem_cons] at h
    push_neg at h
    unfold alookup
    rw [if_neg (fun he => h.1 he.symm)]
    exact ih h.2

theorem alookup_cons {α : Type} (k : String) (p : String × α) (l : List (String × α)) :
    alookup k (p :: l) = if p.1 = k then some p.2 else alookup k l := rfl

theorem alookup_append_of_none {α : Type} (k : String) (l1 l2 : List (String × α))
    (h : alookup k l1 = none) : alookup k (l1 ++ l2) = alookup k l2 := by
  induction l1 with
  | nil => rfl
  | cons p rest ih =>
    rw [alookup_cons] at h
    by_cases hp : p.1 = k
    · rw [if_pos hp] at h
      exact absurd h (by simp)
    · rw [if_neg hp] at h
      rw [List.cons_append, alookup_cons, if_neg hp]
      exact ih h

theorem filter_key_eq_self {α : Type} (k : String) (l : List (String × α))
    (h : k ∉ l.map Prod.fst) : l.filter (fun p => p.1 ≠ k) = l := by
  induction l with
  | nil => rfl
  | cons p rest ih =>
    simp only [List.map_cons, List.mem_cons] at h
    push_neg at h
    rw [List.filter_cons, if_pos (by simpa using fun he => h.1 he.symm)]
    rw [ih h.2]

/-- The effect trace the eviction loop produces, keyed to the claim's
vocabulary: per uid-matching session a `detachSession`, plus the eviction
ctrl enqueued unless the sid equals `SkipSid`. -/
def evictFx (tname skip : String) (m : ServerComMessage) :
    List (String × PerSessionData) → List Effect
  | [] => []
  | (sid, pssd) :: rest =>
    if pssd.uid = m.uid then
      (Effect.detachSession sid tname ::
        (if sid ≠ skip then [Effect.queueOut sid (OutMsg.srv m)] else []))
        ++ evictFx tname skip m rest
    else evictFx tname skip m rest

theorem evictLoop_characterization (tname skip : String) (m : ServerComMessage) :
    ∀ (rest pre : List (String × PerSessionData)),
      ((pre ++ rest).map Prod.fst).Nodup →
      (∀ p ∈ pre, p.2.uid ≠ m.uid) →
      evictLoop tname skip m (rest.map Prod.fst) (pre ++ rest) =
        (pre ++ rest.filter (fun p => p.2.uid ≠ m.uid), evictFx tname skip m rest) := by
  intro rest
  induction rest with
  | nil =>
    intro pre _ _
    simp [evictLoop, evictFx]
  | cons hd rest2 ih =>
    obtain ⟨sid, pssd⟩ := hd
    intro pre hnd hpre
    have hnd' := hnd
    rw [List.map_append] at hnd'
    have hdisj := (List.nodup_append.mp hnd').2.2
    have hsid_pre : sid ∉ pre.map Prod.fst := by
      intro hmem
      exact hdisj hmem (by simp)
    have hsid_rest2 : sid ∉ rest2.map Prod.fst := by
      have h2 := (List.nodup_append.mp hnd').2.1
      simp only [List.map_cons] at h2
      exact (List.nodup_cons.mp h2).1
    have hlook : alookup sid (pre ++ (sid, pssd) :: rest2) = some pssd := by
      rw [alookup_append_of_none sid pre _ (alookup_none_of_not_mem_keys sid pre hsid_pre),
          alookup_cons, if_pos rfl]
    by_cases hu : pssd.uid = m.uid
    · have hfilter : (pre ++ (sid, pssd) :: rest2).filter (fun p => p.1 ≠ sid) =
          pre ++ rest2 := by
        rw [List.filter_append, List.filter_cons]
        rw [filter_key_eq_self sid pre hsid_pre, filter_key_eq_self sid rest2 hsid_rest2]
        simp
      have hrem : remSession (pre ++ (sid, pssd) :: rest2) (some sid) m.uid =
          (some pssd, pre ++ rest2) := by
        unfold remSession
        simp only [hlook, hu, if_pos, hfilter]
      have hnd2 : ((pre ++ rest2).map Prod.fst).Nodup := by
        have hsub : (pre ++ rest2).Sublist (pre ++ (sid, pssd) :: rest2) :=
          List.Sublist.append_left ((List.Sublist.refl rest2).cons _) pre
        exact hnd.sublist (hsub.map Prod.fst)
      simp only [List.map_cons]
      unfold evictLoop
      simp only [hrem]
      rw [ih pre hnd2 hpre]
      simp only [evictFx, List.filter_cons]
      simp [hu]
    · have hrem : remSession (pre ++ (sid, pssd) :: rest2) (some sid) m.uid =
          (none, pre ++ (sid, pssd) :: rest2) := by
        unfold remSession
        simp [hlook, hu]
      have hassoc : pre ++ (sid, pssd) :: rest2 = (pre ++ [(sid, pssd)]) ++ rest2 := by
        simp
      have hnd3 : (((pre ++ [(sid, pssd)]) ++ rest2).map Prod.fst).Nodup := by
        rw [← hassoc]; exact hnd
      have hpre3 : ∀ p ∈ pre ++ [(sid, pssd)], p.2.uid ≠ m.uid := by
        intro p hp
        rcases List.mem_append.mp hp with hp | hp
        · exact hpre p hp
        · simp at hp
          rw [hp]
          exact hu
      simp only [List.map_cons]
      unfold evictLoop
      simp only [hrem]
      rw [hassoc, ih (pre ++ [(sid, pssd)]) hnd3 hpre3]
      simp only [evictFx, List.filter_cons]
      simp [hu]

theorem not_mem_keys_filter {α : Type} (k : String) (q : (String × α) → Bool)
    (l : List (String × α)) (h : k ∉ l.map Prod.fst) : k ∉ (l.filter q).map Prod.fst := by
  intro hmem
  rcases List.mem_map.mp hmem with ⟨p, hp, hpk⟩
  exact h (List.mem_map.mpr ⟨p, List.mem_of_mem_filter hp, hpk⟩)

theorem alookup_filter_uid_none (u : Uid) :
    ∀ (l : List (String × PerSessionData)) (sid : String) (pssd : PerSessionData),
      (l.map Prod.fst).Nodup → (sid, pssd) ∈ l → pssd.uid = u →
      alookup sid (l.filter (fun p => p.2.uid ≠ u)) = none := by
  intro l
  induction l with
  | nil => intro sid pssd _ hm _; cases hm
  | cons hd rest ih =>
    obtain ⟨k, v⟩ := hd
    intro sid pssd hnd hm hu
    simp only [List.map_cons] at hnd
    have hk_rest : k ∉ rest.map Prod.fst := (List.nodup_cons.mp hnd).1
    have hnd2 : (rest.map Prod.fst).Nodup := (List.nodup_cons.mp hnd).2
    rcases List.mem_cons.mp hm with heq | hm2
    · have hk : sid = k := congrArg Prod.fst heq
      have hv : pssd = v := congrArg Prod.snd heq
      rw [List.filter_cons, if_neg (by simp [← hv, hu])]
      exact alookup_none_of_not_mem_keys sid _
        (by rw [hk]; exact not_mem_keys_filter k _ rest hk_rest)
    · have hks : k ≠ sid := by
        intro hkeq
        apply hk_rest
        rw [hkeq]
        exact List.mem_map.mpr ⟨(sid, pssd), hm2, rfl⟩
      rw [List.filter_cons]
      by_cases hq : v.uid ≠ u
      · rw [if_pos (by simpa using hq)]
        unfold alookup
        rw [if_neg hks]
        exact ih sid pssd hnd2 hm2 hu
      · rw [if_neg (by simpa using hq)]
        exact ih sid pssd hnd2 hm2 hu

theorem alookup_filter_uid_keep (u : Uid) :
    ∀ (l : List (String × PerSessionData)) (sid : String) (pssd : PerSessionData),
      (l.map Prod.fst).Nodup → (sid, pssd) ∈ l → pssd.uid ≠ u →
      alookup sid (l.filter (fun p => p.2.uid ≠ u)) = some pssd := by
  intro l
  induction l with
  | nil => intro sid pssd _ hm _; cases hm
  | cons hd rest ih =>
    obtain ⟨k, v⟩ := hd
    intro sid pssd hnd hm hu
    simp only [List.map_cons] at hnd
    have hk_rest : k ∉ rest.map Prod.fst := (List.nodup_cons.mp hnd).1
    have hnd2 : (rest.map Prod.fst).Nodup := (List.nodup_cons.mp hnd).2
    rcases List.mem_cons.mp hm with heq | hm2
    · have hk : sid = k := congrArg Prod.fst heq
      have hv : pssd = v := congrArg Prod.snd heq
      rw [List.filter_cons, if_pos (by simp [← hv, hu])]
      unfold alookup
      rw [if_pos hk.symm, hv]
    · have hks : k ≠ sid := by
        intro hkeq
        apply hk_rest
        rw [hkeq]
        exact List.mem_map.mpr ⟨(sid, pssd), hm2, rfl⟩
      rw [List.filter_cons]
      by_cases hq : v.uid ≠ u
      · rw [if_pos (by simpa using hq)]
        unfold alookup
        rw [if_neg hks]
        exact ih sid pssd hnd2 hm2 hu
      · rw [if_neg (by simpa using hq)]
        exact ih sid pssd hnd2 hm2 hu

theorem evictFx_detach_mem (tname skip : String) (m : ServerComMessage) :
    ∀ (l : List (String × PerSessionData)) (sid : String) (pssd : PerSessionData),
      (sid, pssd) ∈ l → pssd.uid = m.uid →
      Effect.detachSession sid tname ∈ evictFx tname skip m l := by
  intro l
  induction l with
  | nil => intro sid pssd hm _; cases hm
  | cons hd rest ih =>
    obtain ⟨k, v⟩ := hd
    intro sid pssd hm hu
    rcases List.mem_cons.mp hm with heq | hm2
    · have hk : sid = k := congrArg Prod.fst heq
      have hv : pssd = v := congrArg Prod.snd heq
      unfold evictFx
      rw [if_pos (by rw [← hv]; exact hu)]
      simp [hk]
    · unfold evictFx
      by_cases hq : v.uid = m.uid
      · rw [if_pos hq]
        exact List.mem_append.mpr (Or.inr (ih sid pssd hm2 hu))
      · rw [if_neg hq]
        exact ih sid pssd hm2 hu

theorem evictFx_queueOut_mem (tname skip : String) (m : ServerComMessage) :
    ∀ (l : List (String × PerSessionData)) (sid : String) (pssd : PerSessionData),
      (sid, pssd) ∈ l → pssd.uid = m.uid → sid ≠ skip →
      Effect.queueOut sid (OutMsg.srv m) ∈ evictFx tname skip m l := by
  intro l
  induction l with
  | nil => intro sid pssd hm _ _; cases hm
  | cons hd rest ih =>
    obtain ⟨k, v⟩ := hd
    intro sid pssd hm hu hsk
    rcases List.mem_cons.mp hm with heq | hm2
    · have hk : sid = k := congrArg Prod.fst heq
      have hv : pssd = v := congrArg Prod.snd heq
      unfold evictFx
      rw [if_pos (by rw [← hv]; exact hu)]
      subst hk
      rw [if_pos hsk]
      simp
    · unfold evictFx
      by_cases hq : v.uid = m.uid
      · rw [if_pos hq]
        exact List.mem_append.mpr (Or.inr (ih sid pssd hm2 hu hsk))
      · rw [if_neg hq]
        exact ih sid pssd hm2 hu hsk

theorem evictFx_queueOut_ne_skip (tname skip : String) (m : ServerComMessage) :
    ∀ (l : List (String × PerSessionData)) (sid : String) (msg2 : OutMsg),
      Effect.queueOut sid msg2 ∈ evictFx tname skip m l → sid ≠ skip := by
  intro l
  induction l with
  | nil => intro sid msg2 hm; simp [evictFx] at hm
  | cons hd rest ih =>
    obtain ⟨k, v⟩ := hd
    intro sid msg2 hm
    unfold evictFx at hm
    by_cases hq : v.uid = m.uid
    · rw [if_pos hq] at hm
      rcases List.mem_append.mp hm with hm | hm
      · rcases List.mem_cons.mp hm with heq | hm2
        · exact absurd heq (by simp)
        · by_cases hks : k ≠ skip
          · rw [if_pos hks] at hm2
            simp at hm2
            rw [hm2.1]
            exact hks
          · rw [if_neg hks] at hm2
            simp at hm2
      · exact ih sid msg2 hm
    · rw [if_neg hq] at hm
      exact ih sid msg2 hm

/-- C6: a broadcast Ctrl with status 205 and text `"evicted"` carrying a
nonzero uid `U` removes from `T.sessions` exactly the sessions whose
per-session uid is `U`, detaches each of them on the session side, sends the
eviction ctrl to each removed session except the one whose sid equals
`SkipSid` (which is detached but not notified), and leaves sessions of other
uids attached with unchanged per-session data; the timer and the session
store are untouched. -/
theorem evict_broadcast_semantics (st : ProxyState) (resp : ClusterResp) (c : MsgServerCtrl)
    (hsid : resp.origSid = "*")
    (hpres : resp.srvMsg.pres = false) (hdata : resp.srvMsg.data = none)
    (hinfo : resp.srvMsg.info = false)
    (hctrl : resp.srvMsg.ctrl = some c)
    (hcode : c.code = 205) (htext : c.text = "evicted")
    (huid : resp.srvMsg.uid ≠ 0)
    (hnodup : (st.topic.sessions.map Prod.fst).Nodup) :
    ∃ st1 fx, pstep st (PEvent.proxy resp) = some (st1, fx) ∧
      st1.topic.sessions =
        st.topic.sessions.filter (fun p => p.2.uid ≠ resp.srvMsg.uid) ∧
      st1.timer = st.timer ∧ st1.store = st.store ∧
      (∀ sid pssd, (sid, pssd) ∈ st.topic.sessions → pssd.uid = resp.srvMsg.uid →
        alookup sid st1.topic.sessions = none ∧
        Effect.detachSession sid st.topic.name ∈ fx ∧
        (sid ≠ resp.srvMsg.skipSid → Effect.queueOut sid (OutMsg.srv resp.srvMsg) ∈ fx)) ∧
      Effect.queueOut resp.srvMsg.skipSid (OutMsg.srv resp.srvMsg) ∉ fx ∧
      (∀ sid pssd, (sid, pssd) ∈ st.topic.sessions → pssd.uid ≠ resp.srvMsg.uid →
        alookup sid st1.topic.sessions = some pssd) := by
  have hchar := evictLoop_characterization st.topic.name resp.srvMsg.skipSid resp.srvMsg
    st.topic.sessions [] (by simpa using hnodup) (by intro p hp; cases hp)
  simp only [List.nil_append] at hchar
  have hstep : pstep st (PEvent.proxy resp) =
      some ({ st with topic := { st.topic with
                sessions := st.topic.sessions.filter
                  (fun p => p.2.uid ≠ resp.srvMsg.uid) } },
            evictFx st.topic.name resp.srvMsg.skipSid resp.srvMsg st.topic.sessions) := by
    simp only [pstep, proxyMasterResponse]
    rw [if_pos hsid]
    have hcondB : (resp.srvMsg.pres || resp.srvMsg.data.isSome || resp.srvMsg.info) = false := by
      rw [hpres, hdata, hinfo]; rfl
    simp only [hcondB, Bool.false_eq_true, if_false, hctrl]
    unfold proxyCtrlBroadcast
    simp only [hctrl]
    rw [if_pos (show c.code = 205 ∧ c.text = "evicted" from ⟨hcode, htext⟩),
      if_neg huid, hchar]
  refine ⟨_, _, hstep, rfl, rfl, rfl, ?_, ?_, ?_⟩
  · intro sid pssd hm hu
    refine ⟨alookup_filter_uid_none resp.srvMsg.uid st.topic.sessions sid pssd hnodup hm hu,
      evictFx_detach_mem st.topic.name resp.srvMsg.skipSid resp.srvMsg
        st.topic.sessions sid pssd hm hu, ?_⟩
    intro hsk
    exact evictFx_queueOut_mem st.topic.name resp.srvMsg.skipSid resp.srvMsg
      st.topic.sessions sid pssd hm hu hsk
  · intro hmem
    exact evictFx_queueOut_ne_skip st.topic.name resp.srvMsg.skipSid resp.srvMsg
      st.topic.sessions resp.srvMsg.skipSid (OutMsg.srv resp.srvMsg) hmem rfl
  · intro sid pssd hm hu
    exact alookup_filter_uid_keep resp.srvMsg.uid st.topic.sessions sid pssd hnodup hm hu

/-- Concrete state for the C6 witness: two attached sessions of uid 7 (one of
them the `SkipSid`) and one of uid 8. -/
def c6St : ProxyState :=
  { topic := { name := "grpE", xoriginal := "grpE", catGrp := true, isChan := false,
               inactive := false,
               sessions := [("s1", { uid := 7, isChanSub := false }),
                            ("s2", { uid := 7, isChanSub := false }),
                            ("s3", { uid := 8, isChanSub := false })],
               lastID := 0 },
    timer := TimerState.stopped,
    store := [] }

/-- The concrete eviction broadcast for the C6 witness: uid 7, SkipSid `s2`. -/
def c6Resp : ClusterResp :=
  { srvMsg := { data := none, pres := false, info := false,
                ctrl := some { code := 205, text := "evicted", topic := "grpE" },
                uid := 7, skipSid := "s2" },
    origSid := "*", origReqType := ProxyReqType.broadcast }

/-- Witness: the C6 statement at the concrete eviction broadcast. -/
theorem evict_broadcast_semantics_witness :
    ∃ st1 fx, pstep c6St (PEvent.proxy c6Resp) = some (st1, fx) ∧
      st1.topic.sessions =
        c6St.topic.sessions.filter (fun p => p.2.uid ≠ c6Resp.srvMsg.uid) ∧
      st1.timer = c6St.timer ∧ st1.store = c6St.store ∧
      (∀ sid pssd, (sid, pssd) ∈ c6St.topic.sessions → pssd.uid = c6Resp.srvMsg.uid →
        alookup sid st1.topic.sessions = none ∧
        Effect.detachSession sid c6St.topic.name ∈ fx ∧
        (sid ≠ c6Resp.srvMsg.skipSid → Effect.queueOut sid (OutMsg.srv c6Resp.srvMsg) ∈ fx)) ∧
      Effect.queueOut c6Resp.srvMsg.skipSid (OutMsg.srv c6Resp.srvMsg) ∉ fx ∧
      (∀ sid pssd, (sid, pssd) ∈ c6St.topic.sessions → pssd.uid ≠ c6Resp.srvMsg.uid →
        alookup sid st1.topic.sessions = some pssd) :=
  evict_broadcast_semantics c6St c6Resp { code := 205, text := "evicted", topic := "grpE" }
    rfl rfl rfl rfl rfl rfl rfl (by decide) (by decide)

/-! ## C2: idle-kill timer discipline -/

/-- The timer side of the claimed invariant: whenever the local session set is
nonempty the kill timer is stopped. -/
def timerInv (st : ProxyState) : Prop :=
  st.topic.sessions ≠ [] → st.timer = TimerState.stopped

theorem regStep_fst (st : ProxyState) (msg : ClientComMessage) (routeOk : Bool)
    (r : ProxyState × List Effect) (h : regStep st msg routeOk = some r) : r.1 = st := by
  unfold regStep at h
  cases hs : msg.sess <;> rw [hs] at h <;>
    by_cases hi : st.topic.inactive <;>
      by_cases hro : routeOk <;>
        simp [hi, hro] at h <;> rw [← h]

theorem remSession_snd_cases (l : List (String × PerSessionData)) (s : Option String)
    (u : Uid) :
    (remSession l s u).2 = l ∨
    ∃ sid, (remSession l s u).2 = l.filter (fun p => p.1 ≠ sid) := by
  unfold remSession
  cases s with
  | none => left; rfl
  | some sid =>
    cases hl : alookup sid l with
    | none => left; simp [hl]
    | some pssd =>
      by_cases hu : pssd.uid = u
      · right; exact ⟨sid, by simp [hl, hu]⟩
      · left; simp [hl, hu]

theorem remSession_snd_ne_nil (l : List (String × PerSessionData)) (s : Option String)
    (u : Uid) (h : (remSession l s u).2 ≠ []) : l ≠ [] := by
  rcases remSession_snd_cases l s u with hc | ⟨sid, hc⟩
  · rw [hc] at h
    exact h
  · rw [hc] at h
    exact filter_ne_nil_of_ne_nil _ l h

theorem leaveAppliedState_sessions (st : ProxyState) (msg : ClientComMessage) (u : Uid) :
    (leaveAppliedState st msg u).topic.sessions =
      (remSession st.topic.sessions msg.sess u).2 := rfl

theorem leaveAppliedState_timer (st : ProxyState) (msg : ClientComMessage) (u : Uid) :
    (leaveAppliedState st msg u).timer =
      (if (remSession st.topic.sessions msg.sess u).2.isEmpty
       then TimerState.armed idleProxyTopicTimeout else st.timer) := rfl

theorem leaveAppliedState_timerInv (st : ProxyState) (msg : ClientComMessage) (u : Uid)
    (hInv : timerInv st) : timerInv (leaveAppliedState st msg u) := by
  intro hne
  rw [leaveAppliedState_sessions] at hne
  rw [leaveAppliedState_timer]
  have hF : (remSession st.topic.sessions msg.sess u).2.isEmpty = false := by
    cases hE : (remSession st.topic.sessions msg.sess u).2.isEmpty
    · rfl
    · exact absurd (List.isEmpty_iff.mp hE) hne
  rw [hF]
  simpa using hInv (remSession_snd_ne_nil _ _ _ hne)

theorem leaveAppliedState_arms (st : ProxyState) (msg : ClientComMessage) (u : Uid)
    (hE : (leaveAppliedState st msg u).topic.sessions = []) :
    (leaveAppliedState st msg u).timer = TimerState.armed idleProxyTopicTimeout := by
  rw [leaveAppliedState_sessions] at hE
  rw [leaveAppliedState_timer, hE]
  rfl

theorem handleLeave_st_cases (st : ProxyState) (msg : ClientComMessage) (routeOk : Bool) :
    (handleProxyLeaveRequest st msg routeOk).st = st ∨
    ∃ u, (handleProxyLeaveRequest st msg routeOk).st = leaveAppliedState st msg u := by
  unfold handleProxyLeaveRequest
  by_cases h0 : (if msg.init then ParseUserId msg.asUser else 0) = 0
  · cases hl : sessLookup st.topic.sessions msg.sess with
    | none =>
      left
      simp [h0, hl]
    | some pssd =>
      right
      exact ⟨pssd.uid, by simp [h0, hl]⟩
  · right
    exact ⟨(if msg.init then ParseUserId msg.asUser else 0), by simp [h0]⟩

theorem handleLeave_st_applied_of_not_early (st : ProxyState) (msg : ClientComMessage)
    (routeOk : Bool) (hne : leaveEarlyReturn st msg = false) :
    ∃ u, (handleProxyLeaveRequest st msg routeOk).st = leaveAppliedState st msg u := by
  unfold leaveEarlyReturn at hne
  unfold handleProxyLeaveRequest
  by_cases h0 : (if msg.init then ParseUserId msg.asUser else 0) = 0
  · cases hl : sessLookup st.topic.sessions msg.sess with
    | none => simp [h0, hl] at hne
    | some pssd => exact ⟨pssd.uid, by simp [h0, hl]⟩
  · exact ⟨(if msg.init then ParseUserId msg.asUser else 0), by simp [h0]⟩

theorem evictLoop_fst_ne_nil (tname skip : String) (m : ServerComMessage) :
    ∀ (pending : List String) (cur : List (String × PerSessionData)),
      (evictLoop tname skip m pending cur).1 ≠ [] → cur ≠ [] := by
  intro pending
  induction pending with
  | nil => intro cur h; exact h
  | cons sid rest ih =>
    intro cur h
    unfold evictLoop at h
    rcases hrem : remSession cur (some sid) m.uid with ⟨o, cur1⟩
    rw [hrem] at h
    have hcur1 : cur1 ≠ [] := by
      cases o with
      | some v => simpa using ih cur1 (by simpa using h)
      | none => exact ih cur1 (by simpa using h)
    apply remSession_snd_ne_nil cur (some sid) m.uid
    rw [hrem]
    exact hcur1

theorem handleProxyBroadcast_sessions (t : Topic) (m : ServerComMessage) :
    (handleProxyBroadcast t m).1.sessions = t.sessions := by
  unfold handleProxyBroadcast
  by_cases hi : t.inactive <;> cases hd : m.data <;> simp [hi, hd]

theorem proxyCtrlBroadcast_timerInv (st : ProxyState) (m : ServerComMessage)
    (r : ProxyState × List Effect) (hInv : timerInv st)
    (h : proxyCtrlBroadcast st m = some r) : timerInv r.1 := by
  unfold proxyCtrlBroadcast at h
  cases hc : m.ctrl with
  | none =>
    simp only [hc] at h
    simp at h
    rw [← h]
    exact hInv
  | some c =>
    simp only [hc] at h
    by_cases hcond : c.code = 205 ∧ c.text = "evicted"
    · rw [if_pos hcond] at h
      by_cases hz : m.uid = 0
      · rw [if_pos hz] at h
        cases h
      · rw [if_neg hz] at h
        simp at h
        rw [← h]
        intro hne
        simp only at hne ⊢
        exact hInv (evictLoop_fst_ne_nil st.topic.name m.skipSid m
          (st.topic.sessions.map Prod.fst) st.topic.sessions hne)
    · rw [if_neg hcond] at h
      simp at h
      rw [← h]
      exact hInv

theorem proxyDirectedState_timerInv (st : ProxyState) (resp : ClusterResp)
    (hInv : timerInv st) : timerInv (proxyDirectedState st resp) := by
  unfold proxyDirectedState
  cases ht : resp.origReqType with
  | join =>
    cases hsg : storeGet st.store resp.origSid with
    | none =>
      simp only [hsg]
      exact hInv
    | some sess =>
      cases hc : resp.srvMsg.ctrl with
      | none =>
        simp only [hsg, hc]
        exact hInv
      | some c =>
        simp only [hsg, hc]
        by_cases hcode : c.code < 300
        · rw [if_pos hcode]
          intro _
          rfl
        · rw [if_neg hcode]
          by_cases hE : st.topic.sessions.isEmpty
          · rw [if_pos hE]
            intro hne
            exact absurd (List.isEmpty_iff.mp hE) (by simpa using hne)
          · rw [if_neg hE]
            exact hInv
  | leave =>
    cases hc : resp.srvMsg.ctrl with
    | none =>
      simp only [hc]
      exact hInv
    | some c =>
      simp only [hc]
      by_cases hcode : c.code < 300
      · rw [if_pos hcode]
        cases hsg : storeGet st.store resp.origSid with
        | none =>
          simp only [hsg]
          by_cases hE : st.topic.sessions.isEmpty
          · rw [if_pos hE]
            intro hne
            exact absurd (List.isEmpty_iff.mp hE) (by simpa using hne)
          · rw [if_neg hE]
            exact hInv
        | some sess =>
          simp only [hsg]
          by_cases hE :
              (remSession st.topic.sessions (some resp.origSid) sess.uid).2.isEmpty
          · rw [if_pos hE]
            intro hne
            exact absurd (List.isEmpty_iff.mp hE) (by simpa using hne)
          · rw [if_neg hE]
            intro hne
            exact hInv (remSession_snd_ne_nil _ _ _ (by simpa using hne))
      · rw [if_neg hcode]
        by_cases hE : st.topic.sessions.isEmpty
        · rw [if_pos hE]
          intro hne
          exact absurd (List.isEmpty_iff.mp hE) (by simpa using hne)
        · rw [if_neg hE]
          exact hInv
  | broadcast => exact hInv
  | meta => exact hInv
  | call => exact hInv
  | meUserAgent => exact hInv
  | bgSession => exact hInv

theorem pstep_timerInv (st : ProxyState) (e : PEvent) (st1 : ProxyState) (fx : List Effect)
    (hInv : timerInv st) (h : pstep st e = some (st1, fx)) : timerInv st1 := by
  cases e with
  | reg msg rOk =>
    have h1 : st1 = st := regStep_fst st msg rOk (st1, fx) h
    rw [h1]
    exact hInv
  | unreg msg rOk =>
    have h1 : st1 = (handleProxyLeaveRequest st msg rOk).st :=
      unregStep_fst st msg rOk (st1, fx) h
    rw [h1]
    rcases handleLeave_st_cases st msg rOk with hc | ⟨u, hc⟩
    · rw [hc]; exact hInv
    · rw [hc]; exact leaveAppliedState_timerInv st msg u hInv
  | clientMsg msg rOk =>
    simp only [pstep] at h
    by_cases hro : rOk <;> cases hs : msg.sess <;> simp [hro, hs] at h <;>
      (rw [← h.1]; exact hInv)
  | serverMsg m =>
    simp only [pstep] at h
    by_cases hm : (m.info || m.pres) = true <;> simp [hm] at h <;>
      (rw [← h.1]; exact hInv)
  | meta msg rOk =>
    simp only [pstep] at h
    by_cases hro : rOk <;> cases hs : msg.sess <;> simp [hro, hs] at h <;>
      (rw [← h.1]; exact hInv)
  | supd upd rOk =>
    simp only [pstep] at h
    cases hs : upd.sess with
    | none =>
      simp [hs] at h
      rw [← h.1]
      exact hInv
    | some sid =>
      cases hl : sessLookup st.topic.sessions (some sid) <;> simp [hs, hl] at h <;>
        (rw [← h.1]; exact hInv)
  | proxy resp =>
    simp only [pstep, proxyMasterResponse] at h
    by_cases hb : resp.origSid = "*"
    · rw [if_pos hb] at h
      by_cases hbr : (resp.srvMsg.pres || resp.srvMsg.data.isSome || resp.srvMsg.info) = true
      · rw [if_pos hbr] at h
        simp at h
        rw [← h.1]
        intro hne
        simp only at hne ⊢
        exact hInv (by rwa [handleProxyBroadcast_sessions] at hne)
      · rw [if_neg hbr] at h
        cases hc : resp.srvMsg.ctrl with
        | some c =>
          simp only [hc] at h
          exact proxyCtrlBroadcast_timerInv st resp.srvMsg (st1, fx) hInv h
        | none =>
          simp only [hc] at h
          simp at h
          rw [← h.1]
          exact hInv
    · rw [if_neg hb] at h
      cases hsg : storeGet st.store resp.origSid <;> rw [hsg] at h <;> simp at h <;>
        (rw [← h.1]; exact proxyDirectedState_timerInv st resp hInv)
  | timerFire =>
    simp only [pstep] at h
    cases ht : st.timer with
    | stopped => simp [ht] at h
    | armed d =>
      simp [ht] at h
      rw [← h.1]
      intro _
      rfl
  | topicExit =>
    simp only [pstep] at h
    simp at h
    rw [← h.1]
    exact hInv

theorem runP_timerInv : ∀ (es : List PEvent) (st stF : ProxyState),
    timerInv st → runP st es = some stF → timerInv stF := by
  intro es
  induction es with
  | nil =>
    intro st stF h hr
    unfold runP at hr
    have h2 : st = stF := Option.some.inj hr
    rw [← h2]
    exact h
  | cons e rest ih =>
    intro st stF h hr
    unfold runP at hr
    cases hp : pstep st e with
    | none => simp only [hp] at hr; cases hr
    | some r =>
      obtain ⟨stm, fxm⟩ := r
      simp only [hp] at hr
      exact ih stm stF (pstep_timerInv st e stm fxm h hp) hr

theorem proxyDirectedState_leave_arms (st : ProxyState) (resp : ClusterResp)
    (c : MsgServerCtrl)
    (ht : resp.origReqType = ProxyReqType.leave) (hc : resp.srvMsg.ctrl = some c)
    (hE : (proxyDirectedState st resp).topic.sessions = []) :
    (proxyDirectedState st resp).timer = TimerState.armed idleProxyTopicTimeout := by
  unfold proxyDirectedState at hE ⊢
  simp only [ht, hc] at hE ⊢
  by_cases hcode : c.code < 300
  · rw [if_pos hcode] at hE ⊢
    cases hsg : storeGet st.store resp.origSid with
    | none =>
      simp only [hsg] at hE ⊢
      by_cases hEm : st.topic.sessions.isEmpty
      · rw [if_pos hEm]
      · rw [if_neg hEm] at hE ⊢
        exact absurd (List.isEmpty_iff.mpr hE) hEm
    | some sess =>
      simp only [hsg] at hE ⊢
      by_cases hEm : (remSession st.topic.sessions (some resp.origSid) sess.uid).2.isEmpty
      · rw [if_pos hEm]
      · rw [if_neg hEm] at hE ⊢
        exact absurd (List.isEmpty_iff.mpr (by simpa using hE)) hEm
  · rw [if_neg hcode] at hE ⊢
    by_cases hEm : st.topic.sessions.isEmpty
    · rw [if_pos hEm]
    · rw [if_neg hEm] at hE ⊢
      exact absurd (List.isEmpty_iff.mpr hE) hEm

theorem proxyDirectedState_join_stops (st : ProxyState) (resp : ClusterResp)
    (c : MsgServerCtrl) (sess : Session)
    (ht : resp.origReqType = ProxyReqType.join)
    (hsg : storeGet st.store resp.origSid = some sess)
    (hc : resp.srvMsg.ctrl = some c) (hcode : c.code < 300) :
    (proxyDirectedState st resp).timer = TimerState.stopped := by
  unfold proxyDirectedState
  simp only [ht, hsg, hc]
  rw [if_pos hcode]

/-- C2 (amended): across every event sequence of the proxy actor, (i) a
nonempty session set always finds the timer stopped — this is inductive over
single steps and holds along every run from the initial state; (ii) an unreg
event that does not fail fast arms the timer to `idleProxyTopicTimeout`
whenever it leaves the set empty, (iii) as does any directed leave response
carrying a Ctrl; and (iv) a successful join response (Ctrl code < 300) for a
live session stops the timer. The converse direction of the claim fails: an
eviction Ctrl broadcast that empties the set leaves the timer stopped (see
the counterexample), as does the initial state. -/
theorem proxy_timer_discipline_amended :
    (∀ st e st1 fx, timerInv st → pstep st e = some (st1, fx) → timerInv st1) ∧
    (∀ t store es stF, runP (initProxyState t store) es = some stF → timerInv stF) ∧
    (∀ st msg rOk st1 fx, pstep st (PEvent.unreg msg rOk) = some (st1, fx) →
        leaveEarlyReturn st msg = false → st1.topic.sessions = [] →
        st1.timer = TimerState.armed idleProxyTopicTimeout) ∧
    (∀ st resp c st1 fx, resp.origSid ≠ "*" → resp.origReqType = ProxyReqType.leave →
        resp.srvMsg.ctrl = some c → pstep st (PEvent.proxy resp) = some (st1, fx) →
        st1.topic.sessions = [] → st1.timer = TimerState.armed idleProxyTopicTimeout) ∧
    (∀ st resp c sess st1 fx, resp.origSid ≠ "*" → resp.origReqType = ProxyReqType.join →
        storeGet st.store resp.origSid = some sess → resp.srvMsg.ctrl = some c →
        c.code < 300 → pstep st (PEvent.proxy resp) = some (st1, fx) →
        st1.timer = TimerState.stopped) := by
  refine ⟨fun st e st1 fx => pstep_timerInv st e st1 fx, ?_, ?_, ?_, ?_⟩
  · intro t store es stF hr
    exact runP_timerInv es (initProxyState t store) stF (fun _ => rfl) hr
  · intro st msg rOk st1 fx h hne hE
    have h1 : st1 = (handleProxyLeaveRequest st msg rOk).st :=
      unregStep_fst st msg rOk (st1, fx) h
    obtain ⟨u, hu⟩ := handleLeave_st_applied_of_not_early st msg rOk hne
    rw [h1, hu] at hE ⊢
    exact leaveAppliedState_arms st msg u hE
  · intro st resp c st1 fx hns ht hc h hE
    rw [pstep_proxy_directed st resp st1 fx hns h] at hE ⊢
    exact proxyDirectedState_leave_arms st resp c ht hc hE
  · intro st resp c sess st1 fx hns ht hsg hc hcode h
    rw [pstep_proxy_directed st resp st1 fx hns h]
    exact proxyDirectedState_join_stops st resp c sess ht hsg hc hcode

/-- Empty proxy topic for the C2 trace and witness. -/
def c2Topic : Topic :=
  { name := "grpT", xoriginal := "grpT", catGrp := true, isChan := false,
    inactive := false, sessions := [], lastID := 0 }

/-- The single live session of the C2 trace. -/
def c2Sess : Session :=
  { sid := "s1", uid := 7, subs := [], inflightNonNil := false }

/-- Initial actor state of the C2 trace. -/
def c2Init : ProxyState := initProxyState c2Topic [c2Sess]

/-- Successful join response for `s1`. -/
def c2JoinResp : ClusterResp :=
  { srvMsg := { data := none, pres := false, info := false,
                ctrl := some { code := 200, text := "ok", topic := "grpT" },
                uid := 7, skipSid := "" },
    origSid := "s1", origReqType := ProxyReqType.join }

/-- Eviction broadcast for uid 7. -/
def c2EvictResp : ClusterResp :=
  { srvMsg := { data := none, pres := false, info := false,
                ctrl := some { code := 205, text := "evicted", topic := "grpT" },
                uid := 7, skipSid := "" },
    origSid := "*", origReqType := ProxyReqType.broadcast }

/-- The state after the join-then-evict trace: empty session set, timer
stopped. -/
def c2Final : ProxyState :=
  { topic := { name := "grpT", xoriginal := "grpT", catGrp := true, isChan := false,
               inactive := false, sessions := [], lastID := 0 },
    timer := TimerState.stopped,
    store := [{ sid := "s1", uid := 7, subs := ["grpT"], inflightNonNil := false }] }

/-- Whether the last event of a trace is a successful join response (the
claim's sole admitted exception). -/
def isJoinSuccessEvent : PEvent → Bool
  | PEvent.proxy resp =>
    match resp.srvMsg.ctrl with
    | some c => decide (resp.origReqType = ProxyReqType.join) && decide (c.code < 300)
    | none => false
  | _ => false

/-- `lastIsJoinSuccess es` holds when the final event of `es` is a successful
join response. -/
def lastIsJoinSuccess (es : List PEvent) : Bool :=
  match es.getLast? with
  | some e => isJoinSuccessEvent e
  | none => false

/-- The C2 claim as stated, on one trace: if the session set is empty after
the trace then either the trace ended in a successful join response or the
timer is armed to the idle timeout. -/
def timerMatchesClaim (st0 : ProxyState) (es : List PEvent) : Prop :=
  ∀ stF, runP st0 es = some stF → stF.topic.sessions = [] →
    lastIsJoinSuccess es = true ∨ stF.timer = TimerState.armed idleProxyTopicTimeout

/-- C2 counterexample: after a successful join attaches `s1` (stopping the
timer) an eviction Ctrl broadcast removes it, emptying the session set — and
`proxyCtrlBroadcast` never touches the kill timer, so the actor is left with
an empty session set and a stopped timer although the last event was not a
join response: the timer is not "armed exactly when the session set becomes
empty". -/
theorem timer_left_stopped_after_evict :
    ¬ timerMatchesClaim c2Init [PEvent.proxy c2JoinResp, PEvent.proxy c2EvictResp] := by
  intro h
  rcases h c2Final (by decide) (by decide) with hc | hc
  · exact absurd hc (by decide)
  · exact absurd hc (by decide)

/-- Witness: the amended C2 statement applied along the concrete
join-then-evict trace, plus the timer-stop conjunct at the concrete join
response. -/
theorem proxy_timer_discipline_amended_witness :
    timerInv c2Final ∧
    (∀ st1 fx, pstep c2Init (PEvent.proxy c2JoinResp) = some (st1, fx) →
      st1.timer = TimerState.stopped) :=
  ⟨proxy_timer_discipline_amended.2.1 c2Topic [c2Sess]
      [PEvent.proxy c2JoinResp, PEvent.proxy c2EvictResp] c2Final (by decide),
   fun st1 fx h =>
     proxy_timer_discipline_amended.2.2.2.2 c2Init c2JoinResp
       { code := 200, text := "ok", topic := "grpT" } c2Sess st1 fx
       (by decide) rfl (by decide) rfl (by decide) h⟩

/-! ## C3: shutdown ordering -/

/-- C3: on the shutdown event, `listenAndServe` performs the teardown steps in
exactly the claimed order — global flag, HTTP shutdown with a 2-second grace,
session store shutdown, wait for the listener goroutine, cluster node
shutdown, plugin termination, immediate (non-graceful) gRPC stop when
configured, statistics stop, hub shutdown signal followed by waiting for hub
completion, users-cache stop — and only then returns. The only action not in
the claim's list is the bookkeeping release of the 2-second grace context. -/
theorem listenAndServe_teardown_order (g : Bool) :
    (listenAndServeStopTeardown g).filter
        (fun s => s ≠ ShutdownStep.cancelShutdownCtx) =
      [ShutdownStep.setShuttingDown,
       ShutdownStep.httpServerShutdown 2,
       ShutdownStep.sessionStoreShutdown,
       ShutdownStep.waitListenerDone,
       ShutdownStep.clusterNodeShutdown,
       ShutdownStep.pluginsShutdown]
      ++ (if g then [ShutdownStep.grpcServerStop] else [])
      ++ [ShutdownStep.statsShutdown,
          ShutdownStep.hubSignalShutdown,
          ShutdownStep.waitHubDone,
          ShutdownStep.usersShutdown]
    ∧ ShutdownStep.grpcServerGracefulStop ∉ listenAndServeStopTeardown g
    ∧ (ShutdownStep.grpcServerStop ∈ listenAndServeStopTeardown g ↔ g = true)
    ∧ (listenAndServeStopTeardown g).getLast? = some ShutdownStep.usersShutdown := by
  cases g <;> decide

/-! ## C4: lastID across Data broadcasts -/

/-- Concrete topic for the C4 counterexample: `lastID` is already 5. -/
def c4Topic : Topic :=
  { name := "grpX", xoriginal := "grpX", catGrp := true, isChan := false,
    inactive := false, sessions := [("s1", { uid := 1, isChanSub := false })],
    lastID := 5 }

/-- A Data broadcast carrying the smaller SeqId 3. -/
def c4Msg : ServerComMessage :=
  { data := some { seqId := 3 }, pres := false, info := false, ctrl := none,
    uid := 0, skipSid := "" }

/-- C4 counterexample: `handleProxyBroadcast` assigns `lastID := Data.SeqId`,
so a handled Data broadcast with SeqId 3 while `lastID = 5` lowers `lastID`
to 3 — `lastID` after the broadcast is strictly below its previous value,
refuting unconditional monotonicity. -/
theorem lastID_decreases_on_smaller_seq :
    (handleProxyBroadcast c4Topic c4Msg).1.lastID < c4Topic.lastID := by decide

/-- C4 (amended): `lastID` is assigned the SeqId of each handled Data
broadcast, so it is non-decreasing provided the broadcast carries a SeqId at
least as large as the current `lastID` (which the master guarantees by sending
SeqIds in order, but nothing in this handler enforces). -/
theorem lastID_assignment_monotone_amended (t : Topic) (m : ServerComMessage)
    (d : MsgServerData) (hd : m.data = some d) (hle : t.lastID ≤ d.seqId) :
    t.lastID ≤ (handleProxyBroadcast t m).1.lastID := by
  unfold handleProxyBroadcast
  cases hi : t.inactive
  · simp [hi, hd]
    exact hle
  · simp [hi]

/-- Witness for the amended C4 statement at a concrete broadcast. -/
theorem lastID_assignment_monotone_amended_witness :
    c4Topic.lastID ≤ (handleProxyBroadcast c4Topic
      { data := some { seqId := 9 }, pres := false, info := false, ctrl := none,
        uid := 0, skipSid := "" }).1.lastID :=
  lastID_assignment_monotone_amended c4Topic _ { seqId := 9 } rfl (by decide)

/-! ## C5: getHttpAuth precedence -/

/-- C5: `getHttpAuth` returns the first well-formed pair in the fixed order —
`X-Tinode-Auth` header split on a single space into exactly two parts, then
`Authorization` likewise, then query `auth`/`secret` with the URL-safe base64
characters rewritten (`-` to `+`, `_` to `/`), then form values
`auth`/`secret`, then the `auth`/`secret` cookie pair — and the empty pair
when nothing matches: it coincides with the ordered first-match cascade
`getHttpAuthSpec`. -/
theorem getHttpAuth_first_wellformed_pair (req : HttpRequest) :
    getHttpAuth req = getHttpAuthSpec req := by
  unfold getHttpAuth getHttpAuthSpec authCandidates
  cases h1 : splitPair (headerGet req "X-Tinode-Auth") with
  | some p => simp [firstCandidate]
  | none =>
    cases h2 : splitPair (headerGet req "Authorization") with
    | some p => simp [firstCandidate]
    | none =>
      by_cases hq : queryGet req "auth" = ""
      · by_cases hf : formValue req "auth" = ""
        · cases hc1 : cookieGet req "auth" <;> cases hc2 : cookieGet req "secret" <;>
            simp [firstCandidate, hq, hf, hc1, hc2]
        · simp [firstCandidate, hq, hf]
      · simp [firstCandidate, hq]

/-! ## C7: media garbage collector -/

/-- C7 counterexample: with configured period 8 and random draw 0 the jittered
period is 6, and the gap between the first and second ticks is 6, not the
configured 8: `time.Tick` is created with the jittered period, so every tick
(not only the first) fires at the jittered interval. -/
theorem gc_subsequent_gap_is_jittered :
    gcTickTime 8 0 1 - gcTickTime 8 0 0 ≠ 8 := by decide

theorem deleteUnused_length_bound (c : Nat) :
    ∀ (files : List StoredFile) (b : Nat),
      files.length ≤ (deleteUnused c b files).length + b := by
  intro files
  induction files with
  | nil => intro b; simp [deleteUnused]
  | cons f rest ih =>
    intro b
    unfold deleteUnused
    by_cases hb : b = 0
    · simp [hb]
    · rw [if_neg hb]
      by_cases hc : ¬ f.attached ∧ f.uploadedAt ≤ c
      · rw [if_pos hc]
        have := ih (b - 1)
        simp only [List.length_cons]
        omega
      · rw [if_neg hc]
        have := ih b
        simp only [List.length_cons]
        omega

theorem deleteUnused_removed_unused (c : Nat) :
    ∀ (files : List StoredFile) (b : Nat) (f : StoredFile),
      f ∈ files → f ∉ deleteUnused c b files →
      f.attached = false ∧ f.uploadedAt ≤ c := by
  intro files
  induction files with
  | nil => intro b f hf _; cases hf
  | cons g rest ih =>
    intro b f hf hnf
    unfold deleteUnused at hnf
    by_cases hb : b = 0
    · rw [if_pos hb] at hnf
      exact absurd hf hnf
    · rw [if_neg hb] at hnf
      by_cases hg : ¬ g.attached ∧ g.uploadedAt ≤ c
      · rw [if_pos hg] at hnf
        rcases List.mem_cons.mp hf with rfl | hf2
        · refine ⟨?_, hg.2⟩
          cases hab : f.attached
          · rfl
          · exact absurd hab hg.1
        · exact ih (b - 1) f hf2 hnf
      · rw [if_neg hg] at hnf
        rcases List.mem_cons.mp hf with rfl | hf2
        · exact absurd (List.mem_cons_self _ _) hnf
        · exact ih b f hf2 (fun hmem => hnf (List.mem_cons_of_mem _ hmem))

/-- C7 (amended): the garbage collector's tick schedule uses the jittered
period `period/2 + period/4 + r` (with `r` drawn uniformly below `period/2`)
fixed once at startup — the first tick fires after `0.75·period + r` and every
subsequent gap equals the same jittered period, not the configured one; each
tick deletes at most `blockSize` files, every deleted file being in the
uploaded-but-never-attached state and at least as old as the cutoff; a send on
the stop channel terminates the loop with no further deletion. -/
theorem gc_schedule_amended :
    (∀ period r, 4 ∣ period → r < period / 2 →
        gcTickTime period r 0 = 3 * (period / 4) + r) ∧
    (∀ period r k,
        gcTickTime period r (k + 1) - gcTickTime period r k = gcJitterPeriod period r) ∧
    (∀ c b files, List.length files ≤ (deleteUnused c b files).length + b) ∧
    (∀ c b files f, f ∈ files → f ∉ deleteUnused c b files →
        f.attached = false ∧ f.uploadedAt ≤ c) ∧
    (∀ b es files, gcRun b (GcEvent.stop :: es) files = files) := by
  refine ⟨?_, ?_, ?_, ?_, ?_⟩
  · rintro period r ⟨k, rfl⟩ _
    unfold gcTickTime gcJitterPeriod
    have h2 : 4 * k / 2 = 2 * k := by omega
    have h4 : 4 * k / 4 = k := by omega
    rw [h2, h4]
    ring
  · intro period r k
    unfold gcTickTime
    generalize gcJitterPeriod period r = J
    rw [Nat.succ_mul]
    exact Nat.add_sub_cancel_left _ _
  · intro c b files
    exact deleteUnused_length_bound c files b
  · intro c b files f hf hnf
    exact deleteUnused_removed_unused c files b f hf hnf
  · intro b es files
    rfl

/-- Witness for the amended C7 statement: concrete jitter arithmetic and a
concrete unused file removed by a tick. -/
theorem gc_schedule_amended_witness :
    gcTickTime 8 1 0 = 3 * (8 / 4) + 1 ∧
    (StoredFile.mk 7 false 100).attached = false ∧
    (StoredFile.mk 7 false 100).uploadedAt ≤ 4000 :=
  ⟨gc_schedule_amended.1 8 1 (by decide) (by decide),
   gc_schedule_amended.2.2.2.1 4000 1 [StoredFile.mk 7 false 100] (StoredFile.mk 7 false 100)
     (by decide) (by decide)⟩

/-! ## C10: empty upload rejected before any backend mutation -/

/-- C10: an authenticated, size-admissible upload whose multipart file part
yields no bytes for the MIME sniff (the first 512-byte read fails immediately,
as it does for a zero-byte file) is answered with `ErrUnknown`, and neither
the backend `Upload` nor `Files.FinishUpload` is invoked, so no `FileDef`
record is created. -/
theorem upload_empty_file_err_unknown (req : UploadRequest) (u : Uid) (f : FilePart)
    (hm : req.method = "POST" ∨ req.method = "PUT")
    (hk : req.apiKeyValid = true)
    (ha : req.auth = AuthOutcome.uid u) (hu : u ≠ 0)
    (hh : req.headersOutcome = some 0)
    (hf : req.formFile = FormFileResult.filePart f)
    (hc : f.content = []) :
    (largeFileReceive req).response = UploadResponse.errUnknown ∧
    (largeFileReceive req).uploadCalled = false ∧
    (largeFileReceive req).finishUploadCalled = false := by
  unfold largeFileReceive
  rcases hm with hm | hm <;>
    simp [hm, hk, ha, hh, hf, firstReadFails, hc, hu]

/-- Concrete zero-byte upload request for the C10 witness. -/
def c10Req : UploadRequest :=
  { method := "POST", apiKeyValid := true, auth := AuthOutcome.uid 9,
    topicField := "", headersOutcome := some 0,
    formFile := FormFileResult.filePart { content := [], contentTypeHdr := "text/plain" },
    sniffedMime := "application/octet-stream", parsedUserMime := none, seekOk := true,
    uploadResult := some ("url", 0), finishOk := true, mediaGcPeriod := 0 }

/-- Witness: the C10 statement evaluated on the concrete zero-byte upload. -/
theorem upload_empty_file_err_unknown_witness :
    (largeFileReceive c10Req).response = UploadResponse.errUnknown ∧
    (largeFileReceive c10Req).uploadCalled = false ∧
    (largeFileReceive c10Req).finishUploadCalled = false :=
  upload_empty_file_err_unknown c10Req 9 { content := [], contentTypeHdr := "text/plain" }
    (Or.inl rfl) rfl rfl (by decide) rfl rfl rfl

end Towncryer
